import Mathlib

/-!
Verification of the style-configuration engine of `src/events.js` of the
QR31 quick-reply menu extension.  The JavaScript code is shallowly
embedded: strings are `String` / `List Char`, JavaScript numbers are
exact rationals extended with NaN and the two infinities (`JSNum`),
nullable values are `Option`, and the DOM is a record of finite-map-like
fields (`Dom`).  Every definition is executable.
-/

namespace QR31

/-- Decimal digit test, the regular-expression class [0-9]
(code points 48 to 57). -/
def isDigitChar (c : Char) : Bool := 48 ≤ c.toNat && c.toNat ≤ 57

/-- Hex digit test, the class [0-9A-F] under the /i flag
(also code points 97-102 and 65-70). -/
def isHexDigitChar (c : Char) : Bool :=
  isDigitChar c || (97 ≤ c.toNat && c.toNat ≤ 102) || (65 ≤ c.toNat && c.toNat ≤ 70)

/-- The class [0-9.] used by the alpha capture group of the rgba pattern
(the dot is code point 46). -/
def isDigitDotChar (c : Char) : Bool := isDigitChar c || c.toNat = 46

/-- JavaScript whitespace (the ASCII part of the \s class; the source only
ever meets plain spaces here): space, tab, newline, carriage return,
vertical tab, form feed. -/
def jsSpaceChar (c : Char) : Bool :=
  c.toNat = 32 || c.toNat = 9 || c.toNat = 10 || c.toNat = 13 || c.toNat = 11 || c.toNat = 12

/-- Value of a decimal digit character. -/
def digitVal (c : Char) : Nat := c.toNat - 48

/-- Value of a most-significant-first decimal digit string, as JavaScript
parseInt computes it on all-digit input. -/
def digitsVal (l : List Char) : Nat := l.foldl (fun a c => a * 10 + digitVal c) 0

/-- Value of a hex digit character, either case. -/
def hexDigitVal (c : Char) : Nat :=
  if isDigitChar c then c.toNat - 48
  else if 97 ≤ c.toNat && c.toNat ≤ 102 then c.toNat - 87
  else if 65 ≤ c.toNat && c.toNat ≤ 70 then c.toNat - 55
  else 0

/-- Value of a hex digit string, as parseInt with radix 16 on valid input. -/
def hexDigitsVal (l : List Char) : Nat := l.foldl (fun a c => a * 16 + hexDigitVal c) 0

/-- Little-endian decimal digits of a natural number, with fuel. -/
def natDigitsAux : Nat → Nat → List Char
  | 0, _ => []
  | fuel + 1, n => if n = 0 then [] else Nat.digitChar (n % 10) :: natDigitsAux fuel (n / 10)

/-- Decimal digit list (most significant first) of a natural number,
exactly how JavaScript prints an integral number. -/
def natReprChars (n : Nat) : List Char :=
  if n = 0 then ['0'] else (natDigitsAux (n + 1) n).reverse

/-- Decimal string of a natural number. -/
def natRepr (n : Nat) : String := String.mk (natReprChars n)

/-- JavaScript numbers: NaN, the two infinities, or a finite value
(idealised as an exact rational; IEEE rounding is not modelled). -/
inductive JSNum where
  | nan : JSNum
  | inf : JSNum
  | ninf : JSNum
  | fin : ℚ → JSNum
  deriving DecidableEq, Repr

/-- JavaScript parseFloat restricted to strings over the class [0-9.],
the only strings the source ever hands it (they come out of the alpha
capture group): longest valid decimal prefix, NaN when there is none. -/
def parseFloatDD (l : List Char) : JSNum :=
  let ip := l.takeWhile isDigitChar
  let r1 := l.dropWhile isDigitChar
  if r1.head? = some '.' then
    let fp := r1.tail.takeWhile isDigitChar
    if ip = [] ∧ fp = [] then JSNum.nan
    else JSNum.fin ((digitsVal ip : ℚ) + (digitsVal fp : ℚ) / (10 : ℚ) ^ fp.length)
  else if ip = [] then JSNum.nan
  else JSNum.fin (digitsVal ip)

/-- Both-ends trim over JavaScript whitespace. -/
def jsTrimChars (l : List Char) : List Char :=
  ((l.dropWhile jsSpaceChar).reverse.dropWhile jsSpaceChar).reverse

/-- Trim of a string, String.prototype.trim. -/
def jsTrimS (s : String) : String := String.mk (jsTrimChars s.data)

/-- The numeric part of ToNumber on a string once an optional sign has been
split off: the StrUnsignedDecimalLiteral grammar (digits, optional dot,
optional exponent, or the literal Infinity); anything else is NaN. -/
def parseDecBody (sign : ℚ) (l : List Char) : JSNum :=
  if l = "Infinity".data then (if sign < 0 then JSNum.ninf else JSNum.inf)
  else
    let ip := l.takeWhile isDigitChar
    let r1 := l.dropWhile isDigitChar
    let hasDot : Bool := r1.head? = some '.'
    let fp := if hasDot then r1.tail.takeWhile isDigitChar else []
    let r2 := if hasDot then r1.tail.dropWhile isDigitChar else r1
    if ip = [] ∧ fp = [] then JSNum.nan
    else
      let mant : ℚ := (digitsVal ip : ℚ) + (digitsVal fp : ℚ) / (10 : ℚ) ^ fp.length
      match r2 with
      | [] => JSNum.fin (sign * mant)
      | e :: r3 =>
        if e = 'e' ∨ e = 'E' then
          let sr : ℚ × List Char :=
            match r3 with
            | c :: r4a => if c = '+' then (1, r4a) else if c = '-' then (-1, r4a) else (1, r3)
            | [] => (1, r3)
          let ed := sr.2.takeWhile isDigitChar
          let r5 := sr.2.dropWhile isDigitChar
          if ed = [] ∨ r5 ≠ [] then JSNum.nan
          else
            let ex : ℤ := if sr.1 < 0 then -(digitsVal ed : ℤ) else (digitsVal ed : ℤ)
            JSNum.fin (sign * mant * (10 : ℚ) ^ ex)
        else JSNum.nan

/-- Radix literal part of ToNumber (0x / 0o / 0b forms): every remaining
character must belong to the radix, no sign is allowed. -/
def parseRadix (base : Nat) (digitOk : Char → Bool) (dval : Char → Nat) (l : List Char) : JSNum :=
  if l ≠ [] ∧ l.all digitOk then
    JSNum.fin ((l.foldl (fun a c => a * base + dval c) 0 : Nat) : ℚ)
  else JSNum.nan

/-- Octal digit test. -/
def isOctalChar (c : Char) : Bool := '0' ≤ c && c ≤ '7'

/-- Binary digit test. -/
def isBinChar (c : Char) : Bool := c = '0' || c = '1'

/-- ToNumber on a string: trim, empty means 0, then a radix literal or a
signed decimal / Infinity literal matched against the whole remainder. -/
def strToNumber (s : String) : JSNum :=
  let t := jsTrimChars s.data
  match t with
  | [] => JSNum.fin 0
  | c1 :: rest1 =>
    match rest1 with
    | c2 :: rest2 =>
      if c1 = '0' ∧ (c2 = 'x' ∨ c2 = 'X') then parseRadix 16 isHexDigitChar hexDigitVal rest2
      else if c1 = '0' ∧ (c2 = 'o' ∨ c2 = 'O') then parseRadix 8 isOctalChar digitVal rest2
      else if c1 = '0' ∧ (c2 = 'b' ∨ c2 = 'B') then parseRadix 2 isBinChar digitVal rest2
      else if c1 = '+' then parseDecBody 1 rest1
      else if c1 = '-' then parseDecBody (-1) rest1
      else parseDecBody 1 t
    | [] =>
      if c1 = '+' then parseDecBody 1 []
      else if c1 = '-' then parseDecBody (-1) []
      else parseDecBody 1 t

/-- Smallest power of ten the denominator divides, when one exists below
a generous bound. -/
def pow10Denom (d : Nat) : Option Nat := (List.range 65).find? (fun k => 10 ^ k % d = 0)

/-- Left-pad a digit list with zeros to the given width. -/
def padZeroChars (k : Nat) (l : List Char) : List Char := List.replicate (k - l.length) '0' ++ l

/-- Decimal rendering of a nonnegative rational whose denominator divides
a power of ten.  Such rationals are the only finite values this
development ever prints, and on them (in the magnitude range the style
panel can produce) this agrees with JavaScript number-to-string;
JavaScript's switch to exponent notation below 1e-6 is not modelled. -/
def nonnegRatDec (q : ℚ) : String :=
  match pow10Denom q.den with
  | some k =>
    let n := q.num.natAbs * 10 ^ k / q.den
    if k = 0 then natRepr n
    else String.mk (natReprChars (n / 10 ^ k) ++ '.' :: padZeroChars k (natReprChars (n % 10 ^ k)))
  | none => toString q

/-- JavaScript rendering of a finite number value. -/
def ratToDecString (q : ℚ) : String :=
  if q < 0 then String.mk ('-' :: (nonnegRatDec (-q)).data) else nonnegRatDec q

/-- JavaScript rendering of a number. -/
def jsNumToStr : JSNum → String
  | JSNum.nan => "NaN"
  | JSNum.inf => "Infinity"
  | JSNum.ninf => "-Infinity"
  | JSNum.fin q => ratToDecString q

/-- The JavaScript primitive values that can flow into the helpers:
null, undefined, a number, or a string. -/
inductive JSVal where
  | vNull : JSVal
  | vUndef : JSVal
  | vNum : JSNum → JSVal
  | vStr : String → JSVal
  deriving DecidableEq, Repr

/-- ToNumber on a primitive value. -/
def jsToNumber : JSVal → JSNum
  | JSVal.vNull => JSNum.fin 0
  | JSVal.vUndef => JSNum.nan
  | JSVal.vNum n => n
  | JSVal.vStr s => strToNumber s

/-- ToString on a primitive value (template-literal interpolation). -/
def jsValToStr : JSVal → String
  | JSVal.vNull => "null"
  | JSVal.vUndef => "undefined"
  | JSVal.vNum n => jsNumToStr n
  | JSVal.vStr s => s

/-- The comparison x greater-or-equal 0 on a JavaScript number (false on NaN). -/
def numGe0 : JSNum → Bool
  | JSNum.nan => false
  | JSNum.inf => true
  | JSNum.ninf => false
  | JSNum.fin q => decide (0 ≤ q)

/-- The comparison x less-or-equal 1 on a JavaScript number (false on NaN). -/
def numLe1 : JSNum → Bool
  | JSNum.nan => false
  | JSNum.inf => false
  | JSNum.ninf => true
  | JSNum.fin q => decide (q ≤ 1)

/-- The test /^#[0-9A-F]{6}$/i of the source. -/
def jsTestHex6 (s : String) : Bool :=
  match s.data with
  | [] => false
  | c :: rest => c = '#' && rest.length == 6 && rest.all isHexDigitChar

/-- The test /^#?([0-9A-F]{6})$/i of setupColorPickerSync. -/
def jsTestOptHex6 (s : String) : Bool :=
  let l := s.data
  let l1 := if l.head? = some '#' then l.tail else l
  l1.length == 6 && l1.all isHexDigitChar

/-- The guard of hexToRgba on its opacity argument:
opacity different from null and undefined, at least 0 and at most 1
(relational comparison goes through ToNumber). -/
def opacityValidB (o : JSVal) : Bool :=
  match o with
  | JSVal.vNull => false
  | JSVal.vUndef => false
  | _ => numGe0 (jsToNumber o) && numLe1 (jsToNumber o)

/-- String.prototype.replace with a one-character plain pattern, as in the
source's removal of the leading hash: drops the first occurrence only. -/
def removeFirstHash : List Char → List Char
  | [] => []
  | c :: rest => if c = '#' then rest else c :: removeFirstHash rest

/-- toString(16).padStart(2, zero) of a channel value; the source always
applies it after clamping to [0,255], where this two-digit form is exact. -/
def hexPairOf (n : Nat) : List Char := [Nat.digitChar (n / 16), Nat.digitChar (n % 16)]

/-- The template literal of hexToRgba. -/
def rgbaString (r g b : Nat) (alpha : String) : String :=
  String.mk ("rgba(".data ++ natReprChars r ++ ", ".data ++ natReprChars g ++
    ", ".data ++ natReprChars b ++ ", ".data ++ alpha.data ++ [')'])

/-- hexToRgba of src/events.js, with the boolean recording whether the
invalid-hex branch (which logs a console warning) was taken.  A missing
argument is `none`; an empty string is falsy and also takes the fallback. -/
def hexToRgbaFull (hex : Option String) (opacity : JSVal) : String × Bool :=
  let hw : String × Bool :=
    match hex with
    | none => ("#3c3c3c", true)
    | some s => if s = "" ∨ jsTestHex6 s = false then ("#3c3c3c", true) else (s, false)
  let alphaStr := if opacityValidB opacity then jsValToStr opacity else "0.7"
  let core := removeFirstHash hw.1.data
  let r := hexDigitsVal (core.take 2)
  let g := hexDigitsVal ((core.drop 2).take 2)
  let b := hexDigitsVal ((core.drop 4).take 2)
  (rgbaString r g b alphaStr, hw.2)

/-- hexToRgba, result only. -/
def hexToRgba (hex : Option String) (opacity : JSVal) : String :=
  (hexToRgbaFull hex opacity).1

/-- The four capture groups of the rgba pattern. -/
structure RgbaGroups where
  g1 : List Char
  g2 : List Char
  g3 : List Char
  g4 : Option (List Char)
  deriving DecidableEq, Repr

/-- Body of the rgba pattern after the opening parenthesis:
digits, comma, spaces, digits, comma, spaces, digits, then an optional
comma-spaces-[0-9.]+ alpha group, then the closing parenthesis.  The
pattern is deterministic: every quantifier here is maximal-munch and no
backtracking can resurrect a failed attempt. -/
def matchAfterParen (l : List Char) : Option RgbaGroups :=
  let d1 := l.takeWhile isDigitChar
  let r2 := l.dropWhile isDigitChar
  if d1 = [] then none else
  match r2 with
  | [] => none
  | c :: r3 =>
    if c = ',' then
      let r4 := r3.dropWhile jsSpaceChar
      let d2 := r4.takeWhile isDigitChar
      let r5 := r4.dropWhile isDigitChar
      if d2 = [] then none else
      match r5 with
      | [] => none
      | c2 :: r6 =>
        if c2 = ',' then
          let r7 := r6.dropWhile jsSpaceChar
          let d3 := r7.takeWhile isDigitChar
          let r8 := r7.dropWhile isDigitChar
          if d3 = [] then none else
          match r8 with
          | [] => none
          | c3 :: r9 =>
            if c3 = ',' then
              let r10 := r9.dropWhile jsSpaceChar
              let d4 := r10.takeWhile isDigitDotChar
              let r11 := r10.dropWhile isDigitDotChar
              if d4 = [] then none else
              match r11 with
              | [] => none
              | c4 :: _ => if c4 = ')' then some ⟨d1, d2, d3, some d4⟩ else none
            else if c3 = ')' then some ⟨d1, d2, d3, none⟩ else none
        else none
    else none

/-- Attempt to match the rgba pattern at the head of the list: the literal
rgb, a greedy optional a, then the parenthesised body. -/
def matchRgbaAt (cs : List Char) : Option RgbaGroups :=
  match cs with
  | c1 :: c2 :: c3 :: rest =>
    if c1 = 'r' ∧ c2 = 'g' ∧ c3 = 'b' then
      let rest1 := if rest.head? = some 'a' then rest.tail else rest
      match rest1 with
      | [] => none
      | c :: r1 => if c = '(' then matchAfterParen r1 else none
    else none
  | _ => none

/-- Unanchored regular-expression search: first position where the rgba
pattern matches, as String.prototype.match finds it. -/
def searchRgba : List Char → Option RgbaGroups
  | [] => none
  | c :: rest =>
    match matchRgbaAt (c :: rest) with
    | some g => some g
    | none => searchRgba rest

/-- String.prototype.toUpperCase (ASCII; the strings here are ASCII). -/
def jsToUpper (s : String) : String := String.mk (s.data.map Char.toUpper)

/-- rgbaToHex of src/events.js.  A non-string argument is not modelled:
every call site passes a string, with the empty string falsy. -/
def rgbaToHex (rgba : String) : String :=
  if rgba = "" then "#000000"
  else
    match searchRgba rgba.data with
    | none => if jsTestHex6 rgba then jsToUpper rgba else "#000000"
    | some g =>
      let r := max 0 (min 255 (digitsVal g.g1))
      let gg := max 0 (min 255 (digitsVal g.g2))
      let b := max 0 (min 255 (digitsVal g.g3))
      jsToUpper (String.mk ('#' :: (hexPairOf r ++ hexPairOf gg ++ hexPairOf b)))

/-- Math.max(0, Math.min(1, x)) on a JavaScript number. -/
def jsClamp01 : JSNum → JSNum
  | JSNum.nan => JSNum.nan
  | JSNum.inf => JSNum.fin 1
  | JSNum.ninf => JSNum.fin 0
  | JSNum.fin q => JSNum.fin (max 0 (min 1 q))

/-- getOpacityFromRgba of src/events.js. -/
def getOpacityFromRgba (rgba : String) : JSNum :=
  if rgba = "" then JSNum.fin 1
  else
    match searchRgba rgba.data with
    | none => JSNum.fin 1
    | some g =>
      match g.g4 with
      | none => JSNum.fin 1
      | some a => jsClamp01 (parseFloatDD a)

/-- The numeric literal 0.7 of the source, given as an explicit
normalized rational so that it evaluates by kernel reduction. -/
def rat07 : ℚ := ⟨7, 10, by decide, by decide⟩

/-- The numeric literal 0.85 of the source (17/20 in lowest terms). -/
def rat085 : ℚ := ⟨17, 20, by decide, by decide⟩

/-- The style model stored at settings.menuStyles: a JavaScript object
whose slots may each be absent; the legacy followTheme key is carried so
its deletion is observable. -/
structure MenuStyles where
  itemBgColor : Option String
  itemTextColor : Option String
  titleColor : Option String
  titleBorderColor : Option String
  emptyTextColor : Option String
  menuBgColor : Option String
  menuBorderColor : Option String
  followTheme : Option Bool
  deriving DecidableEq, Repr

/-- The slice of the host settings object this module owns. -/
structure Settings where
  menuStyles : Option MenuStyles
  deriving DecidableEq, Repr

/-- Modelled from the spec: the compiled-in DEFAULT_MENU_STYLES constant
lives in constants.js, which is not part of the sources at hand.  Per the
spec the defaults fill every slot (the per-slot default values the source
itself uses as fallbacks) and carry no legacy followTheme key. -/
def DEFAULT_MENU_STYLES : MenuStyles where
  itemBgColor := some "rgba(60, 60, 60, 0.7)"
  itemTextColor := some "#ffffff"
  titleColor := some "#cccccc"
  titleBorderColor := some "#444444"
  emptyTextColor := some "#666666"
  menuBgColor := some "rgba(0, 0, 0, 0.85)"
  menuBorderColor := some "#555555"
  followTheme := none

/-- The DOM as the module observes it: element values by id (`none` means
the element is absent), textContent by id, the document-level CSS custom
properties, the display style of the style panel (`none` means the panel
element is absent), and whether the menu root element exists. -/
structure Dom where
  vals : String → Option String
  texts : String → Option String
  cssVars : String → Option String
  panelDisplay : Option String
  menuPresent : Bool

/-- Assign element.value when the element exists (the safeSetValue helper;
the event handlers only ever touch elements that exist). -/
def setVal (d : Dom) (id v : String) : Dom :=
  if (d.vals id).isSome then
    { d with vals := fun i => if i = id then some v else d.vals i }
  else d

/-- Assign element.textContent when the element exists (safeSetText). -/
def setText (d : Dom) (id v : String) : Dom :=
  if (d.texts id).isSome then
    { d with texts := fun i => if i = id then some v else d.texts i }
  else d

/-- setProperty on document.documentElement.style. -/
def setCssVar (d : Dom) (name v : String) : Dom :=
  { d with cssVars := fun i => if i = name then some v else d.cssVars i }

/-- A falsy-or-absent value replaced by a default (the JavaScript
value-or-default idiom; the empty string is falsy). -/
def orFalsy (v : Option String) (dflt : String) : String :=
  match v with
  | some s => if s = "" then dflt else s
  | none => dflt

/-- Execution phases recorded by the instrumented applyMenuStyles:
a form-control read, a style-model mutation, a live-render property
update, a panel close. -/
inductive Phase where
  | read : Phase
  | mutate : Phase
  | render : Phase
  | close : Phase
  deriving DecidableEq, Repr

/-- Pipeline rank of a phase; reads and mutations share a rank because the
source interleaves them slot by slot. -/
def phaseRank : Phase → Nat
  | Phase.read => 0
  | Phase.mutate => 0
  | Phase.render => 1
  | Phase.close => 2

/-- getColorValue of applyMenuStyles: prefer the text input when it exists
and holds a full hex colour, otherwise fall back to the picker value (null
when the picker is absent), recording one read per control consulted. -/
def getColorValueT (d : Dom) (pickerId : String) : Option String × List Phase :=
  match d.vals (pickerId ++ "-text") with
  | some v => if jsTestHex6 v then (some v, [Phase.read]) else (d.vals pickerId, [Phase.read, Phase.read])
  | none => (d.vals pickerId, [Phase.read])

/-- safeGetValue: the element value as a string when present, the given
default value otherwise. -/
def safeGetValueT (d : Dom) (id : String) (dflt : JSVal) : JSVal × List Phase :=
  match d.vals id with
  | some v => (JSVal.vStr v, [Phase.read])
  | none => (dflt, [Phase.read])

/-- updateMenuStylesUI of src/events.js with its render trace: a no-op when
the menu root element is absent, otherwise one CSS custom property per
slot with a hard-coded fallback for falsy slots. -/
def updateMenuStylesUIT (d : Dom) (s : Settings) : Dom × List Phase :=
  let styles := s.menuStyles.getD DEFAULT_MENU_STYLES
  if d.menuPresent then
    let d := setCssVar d "--qr-item-bg-color" (orFalsy styles.itemBgColor "rgba(60, 60, 60, 0.7)")
    let d := setCssVar d "--qr-item-text-color" (orFalsy styles.itemTextColor "white")
    let d := setCssVar d "--qr-title-color" (orFalsy styles.titleColor "#ccc")
    let d := setCssVar d "--qr-title-border-color" (orFalsy styles.titleBorderColor "#444")
    let d := setCssVar d "--qr-empty-text-color" (orFalsy styles.emptyTextColor "#666")
    let d := setCssVar d "--qr-menu-bg-color" (orFalsy styles.menuBgColor "rgba(0, 0, 0, 0.85)")
    let d := setCssVar d "--qr-menu-border-color" (orFalsy styles.menuBorderColor "#555")
    (d, List.replicate 7 Phase.render)
  else (d, [])

/-- updateMenuStylesUI, state only. -/
def updateMenuStylesUI (d : Dom) (s : Settings) : Dom := (updateMenuStylesUIT d s).1

/-- closeMenuStylePanel: hide the panel when its element exists. -/
def closeMenuStylePanelT (d : Dom) : Dom × List Phase :=
  if d.panelDisplay.isSome then ({ d with panelDisplay := some "none" }, [Phase.close])
  else (d, [])

/-- closeMenuStylePanel, state only. -/
def closeMenuStylePanel (d : Dom) : Dom := (closeMenuStylePanelT d).1

/-- applyMenuStyles of src/events.js, instrumented with its phase trace in
source order: the defaults are installed first when the model object is
absent (a mutation), then for each slot the controls are read and the slot
written, the legacy followTheme key is deleted, the live render runs, and
the panel is closed. -/
def applyMenuStylesT (d : Dom) (s : Settings) : Dom × Settings × List Phase :=
  let initT : List Phase := if s.menuStyles.isNone then [Phase.mutate] else []
  let p1 := getColorValueT d "qr-item-bgcolor-picker"
  let p2 := safeGetValueT d "qr-item-opacity" (JSVal.vNum (JSNum.fin rat07))
  let itemBg := hexToRgba p1.1 p2.1
  let p3 := getColorValueT d "qr-item-color-picker"
  let p4 := getColorValueT d "qr-title-color-picker"
  let p5 := getColorValueT d "qr-title-border-picker"
  let p6 := getColorValueT d "qr-empty-color-picker"
  let p7 := getColorValueT d "qr-menu-bgcolor-picker"
  let p8 := safeGetValueT d "qr-menu-opacity" (JSVal.vNum (JSNum.fin rat085))
  let menuBg := hexToRgba p7.1 p8.1
  let p9 := getColorValueT d "qr-menu-border-picker"
  let ms : MenuStyles :=
    { itemBgColor := some itemBg
      itemTextColor := some (orFalsy p3.1 "#ffffff")
      titleColor := some (orFalsy p4.1 "#cccccc")
      titleBorderColor := some (orFalsy p5.1 "#444444")
      emptyTextColor := some (orFalsy p6.1 "#666666")
      menuBgColor := some menuBg
      menuBorderColor := some (orFalsy p9.1 "#555555")
      followTheme := none }
  let s' : Settings := { menuStyles := some ms }
  let ru := updateMenuStylesUIT d s'
  let cl := closeMenuStylePanelT ru.1
  (cl.1, s',
    initT ++ p1.2 ++ p2.2 ++ [Phase.mutate] ++ p3.2 ++ [Phase.mutate] ++ p4.2 ++ [Phase.mutate]
      ++ p5.2 ++ [Phase.mutate] ++ p6.2 ++ [Phase.mutate] ++ p7.2 ++ p8.2 ++ [Phase.mutate]
      ++ p9.2 ++ [Phase.mutate] ++ [Phase.mutate] ++ ru.2 ++ cl.2)

/-- applyMenuStyles, final DOM and settings. -/
def applyMenuStyles (d : Dom) (s : Settings) : Dom × Settings :=
  ((applyMenuStylesT d s).1, (applyMenuStylesT d s).2.1)

/-- loadMenuStylesIntoPanel of src/events.js: decode the model (or the
defaults when the model object is absent or a slot falsy) into the form
controls; assigning a number to a value coerces it to its string. -/
def loadMenuStylesIntoPanel (d : Dom) (s : Settings) : Dom :=
  let styles := s.menuStyles.getD DEFAULT_MENU_STYLES
  let itemBgColorHex :=
    match styles.itemBgColor with
    | some v => if v = "" then "#3c3c3c" else rgbaToHex v
    | none => "#3c3c3c"
  let d := setVal d "qr-item-bgcolor-picker" itemBgColorHex
  let d := setVal d "qr-item-bgcolor-text" (jsToUpper itemBgColorHex)
  let itemOpacity :=
    match styles.itemBgColor with
    | some v => if v = "" then JSNum.fin rat07 else getOpacityFromRgba v
    | none => JSNum.fin rat07
  let d := setVal d "qr-item-opacity" (jsNumToStr itemOpacity)
  let d := setText d "qr-item-opacity-value" (jsNumToStr itemOpacity)
  let itemTextColor := orFalsy styles.itemTextColor "#ffffff"
  let d := setVal d "qr-item-color-picker" itemTextColor
  let d := setVal d "qr-item-color-text" (jsToUpper itemTextColor)
  let titleColor := orFalsy styles.titleColor "#cccccc"
  let d := setVal d "qr-title-color-picker" titleColor
  let d := setVal d "qr-title-color-text" (jsToUpper titleColor)
  let titleBorderColor := orFalsy styles.titleBorderColor "#444444"
  let d := setVal d "qr-title-border-picker" titleBorderColor
  let d := setVal d "qr-title-border-text" (jsToUpper titleBorderColor)
  let emptyColor := orFalsy styles.emptyTextColor "#666666"
  let d := setVal d "qr-empty-color-picker" emptyColor
  let d := setVal d "qr-empty-color-text" (jsToUpper emptyColor)
  let menuBgColorHex :=
    match styles.menuBgColor with
    | some v => if v = "" then "#000000" else rgbaToHex v
    | none => "#000000"
  let d := setVal d "qr-menu-bgcolor-picker" menuBgColorHex
  let d := setVal d "qr-menu-bgcolor-text" (jsToUpper menuBgColorHex)
  let menuOpacity :=
    match styles.menuBgColor with
    | some v => if v = "" then JSNum.fin rat085 else getOpacityFromRgba v
    | none => JSNum.fin rat085
  let d := setVal d "qr-menu-opacity" (jsNumToStr menuOpacity)
  let d := setText d "qr-menu-opacity-value" (jsNumToStr menuOpacity)
  let menuBorderColor := orFalsy styles.menuBorderColor "#555555"
  let d := setVal d "qr-menu-border-picker" menuBorderColor
  let d := setVal d "qr-menu-border-text" (jsToUpper menuBorderColor)
  d

/-- resetMenuStyles of src/events.js: replace the model with a fresh copy
of the defaults, reload the panel, render. -/
def resetMenuStyles (d : Dom) (_s : Settings) : Dom × Settings :=
  let s' : Settings := { menuStyles := some DEFAULT_MENU_STYLES }
  let d1 := loadMenuStylesIntoPanel d s'
  let d2 := updateMenuStylesUI d1 s'
  (d2, s')

/-- The input listener setupColorPickerSync installs on the text control of
the pair with the given base id: when the trimmed value is six hex digits
with an optional leading hash, push the hash-prefixed colour into the
picker and its uppercase form back into the text control; otherwise leave
both untouched.  The listener only exists when both elements do. -/
def colorTextInputHandler (d : Dom) (base : String) : Dom :=
  let v := jsTrimS ((d.vals (base ++ "-text")).getD "")
  if jsTestOptHex6 v then
    let color := if v.data.head? = some '#' then v else String.mk ('#' :: v.data)
    let d1 := setVal d (base ++ "-picker") color
    setVal d1 (base ++ "-text") (jsToUpper color)
  else d

/-- The change listener on the same text control: like the input listener,
but an invalid committed value reverts the text control to the uppercase
of the picker's current value. -/
def colorTextChangeHandler (d : Dom) (base : String) : Dom :=
  let v := jsTrimS ((d.vals (base ++ "-text")).getD "")
  if jsTestOptHex6 v then
    let color := if v.data.head? = some '#' then v else String.mk ('#' :: v.data)
    let d1 := setVal d (base ++ "-picker") color
    setVal d1 (base ++ "-text") (jsToUpper color)
  else
    setVal d (base ++ "-text") (jsToUpper ((d.vals (base ++ "-picker")).getD ""))

/-- A plain decimal numeral: nonempty, only digits and dots, at most one
dot, at least one digit — the shape a real opacity slider value has. -/
def plainDecimalStr (s : String) : Bool :=
  s.data ≠ [] && s.data.all isDigitDotChar && s.data.count '.' ≤ 1 && s.data.any isDigitChar

/-- An opacity control content that keeps the encoder's alpha a numeral:
the control is absent (the numeric default is used) or holds a plain
decimal numeral. -/
def opacityControlGood (v : Option String) : Bool :=
  match v with
  | none => true
  | some s => plainDecimalStr s

/-- The hash-normalisation the spec speaks about for encode inputs:
trimming and an added leading hash when it is missing. -/
def addHashIfMissing (s : String) : String :=
  if s.data.head? = some '#' then s else String.mk ('#' :: s.data)

/-- An integer channel as the spec's grammar reads it: a nonempty digit
string whose value is at most 255. -/
def specChannelOk (dstr : List Char) : Bool :=
  dstr ≠ [] && dstr.all isDigitChar && digitsVal dstr ≤ 255

/-- A real alpha in [0,1] as the spec's grammar reads it: digits with at
most one dot, at least one digit, value between 0 and 1. -/
def specDecimalOk (a : List Char) : Bool :=
  a.all isDigitDotChar && a.count '.' ≤ 1 && a.any isDigitChar &&
    (match parseFloatDD a with
     | JSNum.fin q => decide (0 ≤ q ∧ q ≤ 1)
     | _ => false)

/-- Separator between grammar fields: a comma followed by spaces. -/
def specAfterChannel (m : List Char) : Option (List Char) :=
  match m with
  | [] => none
  | c :: m2 => if c = ',' then some (m2.dropWhile jsSpaceChar) else none

/-- Stated after the spec's words, for comparison with what the code
produces: a valid alpha-bearing encoded colour string is exactly
rgba(r, g, b, a) with integer channels in [0,255] and a real alpha in
[0,1], spaced as the encoder spaces it. -/
def specValidRgbaString (s : String) : Bool :=
  let l := s.data
  if l.take 5 = "rgba(".data then
    let m0 := l.drop 5
    let d1 := m0.takeWhile isDigitChar
    match specAfterChannel (m0.dropWhile isDigitChar) with
    | none => false
    | some m1 =>
      let d2 := m1.takeWhile isDigitChar
      match specAfterChannel (m1.dropWhile isDigitChar) with
      | none => false
      | some m2 =>
        let d3 := m2.takeWhile isDigitChar
        match specAfterChannel (m2.dropWhile isDigitChar) with
        | none => false
        | some m3 =>
          let a := m3.takeWhile isDigitDotChar
          let m4 := m3.dropWhile isDigitDotChar
          specChannelOk d1 && specChannelOk d2 && specChannelOk d3 &&
            specDecimalOk a && m4 = [')']
  else false

/-- A concrete document with every style control present and valid, used
by the concrete-scenario theorems. -/
def domA : Dom where
  vals := fun i =>
    if i = "qr-item-bgcolor-picker" then some "#112233"
    else if i = "qr-item-bgcolor-text" then some "#112233"
    else if i = "qr-item-opacity" then some "0.5"
    else if i = "qr-item-color-picker" then some "#ffffff"
    else if i = "qr-item-color-text" then some "#FFFFFF"
    else if i = "qr-title-color-picker" then some "#cccccc"
    else if i = "qr-title-color-text" then some "#CCCCCC"
    else if i = "qr-title-border-picker" then some "#444444"
    else if i = "qr-title-border-text" then some "#444444"
    else if i = "qr-empty-color-picker" then some "#666666"
    else if i = "qr-empty-color-text" then some "#666666"
    else if i = "qr-menu-bgcolor-picker" then some "#000000"
    else if i = "qr-menu-bgcolor-text" then some "#000000"
    else if i = "qr-menu-opacity" then some "0.85"
    else if i = "qr-menu-border-picker" then some "#555555"
    else if i = "qr-menu-border-text" then some "#555555"
    else none
  texts := fun i =>
    if i = "qr-item-opacity-value" then some "0.5"
    else if i = "qr-menu-opacity-value" then some "0.85"
    else none
  cssVars := fun _ => none
  panelDisplay := some "block"
  menuPresent := true

/-- A concrete document whose item-opacity control holds the empty string
(numeric coercion 0, hence accepted), whose menu-opacity control holds a
non-numeric string (rejected, so the 0.7 substitute is used), and whose
other controls are absent. -/
def domB : Dom where
  vals := fun i =>
    if i = "qr-item-opacity" then some ""
    else if i = "qr-menu-opacity" then some "x" else none
  texts := fun _ => none
  cssVars := fun _ => none
  panelDisplay := none
  menuPresent := false

/-- A concrete document for the field-sync scenarios: the item-background
text control holds the lowercase keystroke value ff00ff, its picker holds
black. -/
def domC6 : Dom where
  vals := fun i =>
    if i = "qr-item-bgcolor-text" then some "ff00ff"
    else if i = "qr-item-bgcolor-picker" then some "#000000" else none
  texts := fun _ => none
  cssVars := fun _ => none
  panelDisplay := some "block"
  menuPresent := true

/-- A concrete document for the invalid-commit scenario: the text control
holds the invalid value zz while the picker holds the lowercase colour a
previous edit left there. -/
def domC6b : Dom where
  vals := fun i =>
    if i = "qr-item-bgcolor-text" then some "zz"
    else if i = "qr-item-bgcolor-picker" then some "#ff00ff" else none
  texts := fun _ => none
  cssVars := fun _ => none
  panelDisplay := some "block"
  menuPresent := true

/-- A concrete document for the end-to-end scenario: item-background text
control freshly holding the keystroke value ff00ff, picker present,
item-opacity slider at 0.9, menu present. -/
def domC1 : Dom where
  vals := fun i =>
    if i = "qr-item-bgcolor-text" then some "ff00ff"
    else if i = "qr-item-bgcolor-picker" then some "#000000"
    else if i = "qr-item-opacity" then some "0.9" else none
  texts := fun _ => none
  cssVars := fun _ => none
  panelDisplay := some "block"
  menuPresent := true

/-! Arithmetic and character lemmas about digit printing and parsing. -/

theorem digitVal_digitChar (d : Nat) (h : d < 10) : digitVal (Nat.digitChar d) = d := by
  interval_cases d <;> decide

theorem isDigitChar_digitChar (d : Nat) (h : d < 10) : isDigitChar (Nat.digitChar d) = true := by
  interval_cases d <;> decide

theorem hexDigitVal_toUpper_digitChar (d : Nat) (h : d < 16) :
    hexDigitVal (Char.toUpper (Nat.digitChar d)) = d := by
  interval_cases d <;> decide

theorem isHexDigitChar_toUpper_digitChar (d : Nat) (h : d < 16) :
    isHexDigitChar (Char.toUpper (Nat.digitChar d)) = true := by
  interval_cases d <;> decide

theorem space_of_isDigitChar (c : Char) (h : isDigitChar c = true) : jsSpaceChar c = false := by
  cases hs : jsSpaceChar c
  · rfl
  · exfalso
    simp only [jsSpaceChar, Bool.or_eq_true, decide_eq_true_eq] at hs
    simp only [isDigitChar, Bool.and_eq_true, decide_eq_true_eq] at h
    rcases hs with ((((hs | hs) | hs) | hs) | hs) | hs <;> omega

theorem space_of_isDigitDotChar (c : Char) (h : isDigitDotChar c = true) :
    jsSpaceChar c = false := by
  simp only [isDigitDotChar, Bool.or_eq_true, decide_eq_true_eq] at h
  cases hs : jsSpaceChar c
  · rfl
  · exfalso
    simp only [jsSpaceChar, Bool.or_eq_true, decide_eq_true_eq] at hs
    simp only [isDigitChar, Bool.and_eq_true, decide_eq_true_eq] at h
    rcases hs with ((((hs | hs) | hs) | hs) | hs) | hs <;> rcases h with h | h <;> omega

theorem digitsVal_concat (xs : List Char) (c : Char) :
    digitsVal (xs ++ [c]) = 10 * digitsVal xs + digitVal c := by
  simp [digitsVal, List.foldl_append, Nat.mul_comm]

theorem natDigitsAux_all_digits (fuel n : Nat) :
    ∀ c ∈ natDigitsAux fuel n, isDigitChar c = true := by
  induction fuel generalizing n with
  | zero => intro c hc; simp [natDigitsAux] at hc
  | succ f ih =>
    intro c hc
    by_cases h0 : n = 0
    · simp [natDigitsAux, h0] at hc
    · simp only [natDigitsAux, if_neg h0, List.mem_cons] at hc
      rcases hc with hc | hc
      · subst hc; exact isDigitChar_digitChar _ (Nat.mod_lt _ (by omega))
      · exact ih _ c hc

theorem natDigitsAux_val (fuel : Nat) :
    ∀ n, n ≤ fuel → digitsVal (natDigitsAux fuel n).reverse = n := by
  induction fuel with
  | zero => intro n h; interval_cases n; simp [natDigitsAux, digitsVal]
  | succ f ih =>
    intro n h
    by_cases h0 : n = 0
    · simp [natDigitsAux, h0, digitsVal]
    · have hlt : n / 10 < n := Nat.div_lt_self (by omega) (by omega)
      have : digitsVal (natDigitsAux (f + 1) n).reverse =
          10 * digitsVal (natDigitsAux f (n / 10)).reverse + digitVal (Nat.digitChar (n % 10)) := by
        simp [natDigitsAux, if_neg h0, List.reverse_cons, digitsVal_concat]
      rw [this, ih (n / 10) (by omega), digitVal_digitChar _ (Nat.mod_lt _ (by omega))]
      omega

theorem natReprChars_all_digits (n : Nat) :
    ∀ c ∈ natReprChars n, isDigitChar c = true := by
  intro c hc
  by_cases h0 : n = 0
  · simp [natReprChars, h0] at hc; subst hc; decide
  · simp only [natReprChars, if_neg h0, List.mem_reverse] at hc
    exact natDigitsAux_all_digits _ _ c hc

theorem natReprChars_ne_nil (n : Nat) : natReprChars n ≠ [] := by
  by_cases h0 : n = 0
  · simp [natReprChars, h0]
  · have : natDigitsAux (n + 1) n = Nat.digitChar (n % 10) :: natDigitsAux n (n / 10) := by
      simp [natDigitsAux, if_neg h0]
    simp [natReprChars, if_neg h0, this]

theorem digitsVal_natReprChars (n : Nat) : digitsVal (natReprChars n) = n := by
  by_cases h0 : n = 0
  · simp [natReprChars, h0, digitsVal, digitVal]
  · simp only [natReprChars, if_neg h0]
    exact natDigitsAux_val (n + 1) n (by omega)

/-! List-scanning lemmas used to step the regular-expression matcher. -/

theorem takeWhile_all_append (p : Char → Bool) (xs : List Char) (y : Char) (ys : List Char)
    (hxs : ∀ c ∈ xs, p c = true) (hy : p y = false) :
    (xs ++ y :: ys).takeWhile p = xs := by
  induction xs with
  | nil => simp [List.takeWhile_cons, hy]
  | cons x xt ih =>
    have hx : p x = true := hxs x (by simp)
    simp only [List.cons_append, List.takeWhile_cons, hx, if_true]
    rw [ih (fun c hc => hxs c (by simp [hc]))]

theorem dropWhile_all_append (p : Char → Bool) (xs : List Char) (y : Char) (ys : List Char)
    (hxs : ∀ c ∈ xs, p c = true) (hy : p y = false) :
    (xs ++ y :: ys).dropWhile p = y :: ys := by
  induction xs with
  | nil => simp [List.dropWhile_cons, hy]
  | cons x xt ih =>
    have hx : p x = true := hxs x (by simp)
    simp only [List.cons_append, List.dropWhile_cons, hx, if_true]
    exact ih (fun c hc => hxs c (by simp [hc]))

theorem dropWhile_space_stops (xs rest : List Char) (hne : xs ≠ [])
    (hall : ∀ c ∈ xs, jsSpaceChar c = false) :
    (xs ++ rest).dropWhile jsSpaceChar = xs ++ rest := by
  cases xs with
  | nil => exact absurd rfl hne
  | cons x xt =>
    have hx : jsSpaceChar x = false := hall x (by simp)
    simp [List.dropWhile_cons, hx]

theorem matchAfterParen_spec (r g b : Nat) (a : List Char) (ha : a ≠ [])
    (haC : ∀ c ∈ a, isDigitDotChar c = true) :
    matchAfterParen (natReprChars r ++ ',' :: ' ' :: (natReprChars g ++ ',' :: ' ' ::
        (natReprChars b ++ ',' :: ' ' :: (a ++ [')'])))) =
      some ⟨natReprChars r, natReprChars g, natReprChars b, some a⟩ := by
  have hcomma : isDigitChar ',' = false := by decide
  have hparen : isDigitDotChar ')' = false := by decide
  have hsp : jsSpaceChar ' ' = true := by decide
  have t1 := takeWhile_all_append isDigitChar (natReprChars r) ','
    (' ' :: (natReprChars g ++ ',' :: ' ' :: (natReprChars b ++ ',' :: ' ' :: (a ++ [')']))))
    (natReprChars_all_digits r) hcomma
  have d1 := dropWhile_all_append isDigitChar (natReprChars r) ','
    (' ' :: (natReprChars g ++ ',' :: ' ' :: (natReprChars b ++ ',' :: ' ' :: (a ++ [')']))))
    (natReprChars_all_digits r) hcomma
  have sg : (natReprChars g ++ ',' :: ' ' :: (natReprChars b ++ ',' :: ' ' :: (a ++ [')']))).dropWhile jsSpaceChar
      = natReprChars g ++ ',' :: ' ' :: (natReprChars b ++ ',' :: ' ' :: (a ++ [')'])) :=
    dropWhile_space_stops _ _ (natReprChars_ne_nil g)
      (fun c hc => space_of_isDigitChar c (natReprChars_all_digits g c hc))
  have t2 := takeWhile_all_append isDigitChar (natReprChars g) ','
    (' ' :: (natReprChars b ++ ',' :: ' ' :: (a ++ [')'])))
    (natReprChars_all_digits g) hcomma
  have d2 := dropWhile_all_append isDigitChar (natReprChars g) ','
    (' ' :: (natReprChars b ++ ',' :: ' ' :: (a ++ [')'])))
    (natReprChars_all_digits g) hcomma
  have sb : (natReprChars b ++ ',' :: ' ' :: (a ++ [')'])).dropWhile jsSpaceChar
      = natReprChars b ++ ',' :: ' ' :: (a ++ [')']) :=
    dropWhile_space_stops _ _ (natReprChars_ne_nil b)
      (fun c hc => space_of_isDigitChar c (natReprChars_all_digits b c hc))
  have t3 := takeWhile_all_append isDigitChar (natReprChars b) ',' (' ' :: (a ++ [')']))
    (natReprChars_all_digits b) hcomma
  have d3 := dropWhile_all_append isDigitChar (natReprChars b) ',' (' ' :: (a ++ [')']))
    (natReprChars_all_digits b) hcomma
  have sa : (a ++ [')']).dropWhile jsSpaceChar = a ++ [')'] :=
    dropWhile_space_stops _ _ ha
      (fun c hc => space_of_isDigitDotChar c (haC c hc))
  have t4 : (a ++ [')']).takeWhile isDigitDotChar = a :=
    takeWhile_all_append isDigitDotChar a ')' [] haC hparen
  have d4 : (a ++ [')']).dropWhile isDigitDotChar = [')'] :=
    dropWhile_all_append isDigitDotChar a ')' [] haC hparen
  simp only [matchAfterParen, t1, d1, List.dropWhile_cons, hsp, if_true, sg, t2, d2, sb, t3, d3,
    sa, t4, d4]
  simp [natReprChars_ne_nil, ha]

theorem searchRgba_cons_of_match (c : Char) (rest : List Char) (g : RgbaGroups)
    (h : matchRgbaAt (c :: rest) = some g) : searchRgba (c :: rest) = some g := by
  have hstep : searchRgba (c :: rest) =
      match matchRgbaAt (c :: rest) with
      | some g => some g
      | none => searchRgba rest := rfl
  rw [hstep, h]

theorem searchRgba_rgba (r g b : Nat) (a : List Char) (ha : a ≠ [])
    (haC : ∀ c ∈ a, isDigitDotChar c = true) :
    searchRgba (rgbaString r g b (String.mk a)).data =
      some ⟨natReprChars r, natReprChars g, natReprChars b, some a⟩ := by
  have hd : (rgbaString r g b (String.mk a)).data =
      'r' :: 'g' :: 'b' :: 'a' :: '(' :: (natReprChars r ++ ',' :: ' ' :: (natReprChars g ++
        ',' :: ' ' :: (natReprChars b ++ ',' :: ' ' :: (a ++ [')'])))) := by
    simp [rgbaString]
  rw [hd]
  apply searchRgba_cons_of_match
  have hm : matchRgbaAt ('r' :: 'g' :: 'b' :: 'a' :: '(' :: (natReprChars r ++ ',' :: ' ' ::
      (natReprChars g ++ ',' :: ' ' :: (natReprChars b ++ ',' :: ' ' :: (a ++ [')']))))) =
      matchAfterParen (natReprChars r ++ ',' :: ' ' :: (natReprChars g ++ ',' :: ' ' ::
        (natReprChars b ++ ',' :: ' ' :: (a ++ [')'])))) := by
    simp [matchRgbaAt]
  rw [hm]
  exact matchAfterParen_spec r g b a ha haC

/-! The rgba pattern cannot fire inside a hash-hex string. -/

theorem matchRgbaAt_none_of_head (c : Char) (rest : List Char) (hc : c ≠ 'r') :
    matchRgbaAt (c :: rest) = none := by
  cases rest with
  | nil => rfl
  | cons c2 rest2 =>
    cases rest2 with
    | nil => rfl
    | cons c3 rest3 => simp [matchRgbaAt, hc]

theorem searchRgba_none_of_hashhex (l : List Char)
    (h : ∀ c ∈ l, c = '#' ∨ isHexDigitChar c = true) : searchRgba l = none := by
  induction l with
  | nil => rfl
  | cons c rest ih =>
    have hc : c ≠ 'r' := by
      rcases h c (by simp) with h1 | h1
      · subst h1; decide
      · intro he; subst he; exact absurd h1 (by decide)
    have hstep : searchRgba (c :: rest) =
        match matchRgbaAt (c :: rest) with
        | some g => some g
        | none => searchRgba rest := rfl
    rw [hstep, matchRgbaAt_none_of_head c rest hc]
    exact ih (fun x hx => h x (by simp [hx]))

theorem jsTestHex6_iff (s : String) : jsTestHex6 s = true ↔
    ∃ rest, s.data = '#' :: rest ∧ rest.length = 6 ∧ ∀ c ∈ rest, isHexDigitChar c = true := by
  constructor
  · intro h
    cases hd : s.data with
    | nil => rw [jsTestHex6, hd] at h; exact absurd h (by decide)
    | cons c rest =>
      rw [jsTestHex6, hd] at h
      simp only [Bool.and_eq_true, decide_eq_true_eq, beq_iff_eq, List.all_eq_true] at h
      exact ⟨rest, by rw [h.1.1], h.1.2, h.2⟩
  · rintro ⟨rest, hd, hlen, hall⟩
    rw [jsTestHex6, hd]
    have hb : rest.all isHexDigitChar = true := List.all_eq_true.mpr hall
    simp [hlen, hb]

theorem rgbaToHex_on_hex (s : String) (h : jsTestHex6 s = true) : rgbaToHex s = jsToUpper s := by
  rcases (jsTestHex6_iff s).mp h with ⟨rest, hd, hlen, hall⟩
  have hne : s ≠ "" := by
    intro he; subst he; simp at hd
  have hsearch : searchRgba s.data = none := by
    apply searchRgba_none_of_hashhex
    intro c hc
    rw [hd] at hc
    rcases List.mem_cons.mp hc with h1 | h1
    · exact Or.inl h1
    · exact Or.inr (hall c h1)
  rw [rgbaToHex, if_neg hne, hsearch, if_pos h]

/-! Bounds and trim lemmas. -/

theorem hexDigitVal_le_15 (c : Char) : hexDigitVal c ≤ 15 := by
  unfold hexDigitVal
  split
  · rename_i h
    simp only [isDigitChar, Bool.and_eq_true, decide_eq_true_eq] at h
    omega
  · split
    · rename_i h
      simp only [Bool.and_eq_true, decide_eq_true_eq] at h
      omega
    · split
      · rename_i h
        simp only [Bool.and_eq_true, decide_eq_true_eq] at h
        omega
      · omega

theorem hexDigitsVal_le_255_of_short (l : List Char) (h : l.length ≤ 2) :
    hexDigitsVal l ≤ 255 := by
  match l with
  | [] => simp [hexDigitsVal]
  | [c] =>
    have := hexDigitVal_le_15 c
    simp only [hexDigitsVal, List.foldl_cons, List.foldl_nil]
    omega
  | [c1, c2] =>
    have h1 := hexDigitVal_le_15 c1
    have h2 := hexDigitVal_le_15 c2
    simp only [hexDigitsVal, List.foldl_cons, List.foldl_nil]
    omega
  | c1 :: c2 :: c3 :: t => simp at h

theorem space_of_isHexDigitChar (c : Char) (h : isHexDigitChar c = true) :
    jsSpaceChar c = false := by
  simp only [isHexDigitChar, Bool.or_eq_true, Bool.and_eq_true, decide_eq_true_eq] at h
  cases hs : jsSpaceChar c
  · rfl
  · exfalso
    simp only [jsSpaceChar, Bool.or_eq_true, decide_eq_true_eq] at hs
    simp only [isDigitChar, Bool.and_eq_true, decide_eq_true_eq] at h
    rcases hs with ((((hs | hs) | hs) | hs) | hs) | hs <;> rcases h with (h | h) | h <;> omega

theorem dropWhile_eq_self_of_all (p : Char → Bool) (l : List Char)
    (h : ∀ c ∈ l, p c = false) : l.dropWhile p = l := by
  cases l with
  | nil => rfl
  | cons c t => simp [List.dropWhile_cons, h c (by simp)]

theorem jsTrimChars_eq_self (l : List Char) (h : ∀ c ∈ l, jsSpaceChar c = false) :
    jsTrimChars l = l := by
  unfold jsTrimChars
  rw [dropWhile_eq_self_of_all _ _ h,
    dropWhile_eq_self_of_all _ _ (fun c hc => h c (List.mem_reverse.mp hc)), List.reverse_reverse]

theorem jsTestHex6_normalized (s : String) (h : jsTestHex6 s = true) :
    jsTrimS s = s ∧ addHashIfMissing s = s := by
  rcases (jsTestHex6_iff s).mp h with ⟨rest, hd, _, hall⟩
  have hns : ∀ c ∈ s.data, jsSpaceChar c = false := by
    intro c hc
    rw [hd] at hc
    rcases List.mem_cons.mp hc with h1 | h1
    · subst h1; decide
    · exact space_of_isHexDigitChar c (hall c h1)
  constructor
  · show String.mk (jsTrimChars s.data) = s
    rw [jsTrimChars_eq_self s.data hns]
  · unfold addHashIfMissing
    rw [hd]
    simp

/-! ### Claim C3: decode on bare hex -/

/-- C3, counterexample: the claim says a bare 6-digit hex input (matched
case-insensitively) is returned unchanged, but rgbaToHex uppercases it:
on the lowercase bare hex input the output differs from the input. -/
theorem c3_bare_hex_not_unchanged :
    jsTestHex6 "#ff00ff" = true ∧ rgbaToHex "#ff00ff" = "#FF00FF" ∧
      ("#FF00FF" : String) ≠ "#ff00ff" := by
  refine ⟨by decide, ?_, by decide⟩
  decide

/-- C3 (amended): for every input that is already a bare 6-digit hex
colour (case-insensitive), rgbaToHex returns its uppercase form — hence
returns it unchanged exactly when it is already uppercase. -/
theorem c3_bare_hex_uppercased (s : String) (h : jsTestHex6 s = true) :
    rgbaToHex s = jsToUpper s :=
  rgbaToHex_on_hex s h

/-- C3 witness: the amended statement evaluated on a mixed-case input. -/
theorem c3_bare_hex_uppercased_witness :
    jsTestHex6 "#AbCdEf" = true ∧ rgbaToHex "#AbCdEf" = jsToUpper "#AbCdEf" :=
  ⟨by decide, c3_bare_hex_uppercased "#AbCdEf" (by decide)⟩

/-! ### Claim C5: encode fallback -/

/-- C5: for every string that does not match the hex pattern even after
trimming and hash-normalisation, and every opacity, hexToRgba takes the
warning branch and answers with the rgba string derived from the fallback
colour (channels 60, 60, 60); being a total function it never throws. -/
theorem c5_encode_fallback (s : String) (o : JSVal)
    (h : jsTestHex6 (addHashIfMissing (jsTrimS s)) = false) :
    hexToRgbaFull (some s) o =
      (rgbaString 60 60 60 (if opacityValidB o then jsValToStr o else "0.7"), true) := by
  have hfalse : jsTestHex6 s = false := by
    cases ht : jsTestHex6 s
    · rfl
    · obtain ⟨h1, h2⟩ := jsTestHex6_normalized s ht
      rw [h1, h2, ht] at h
      exact absurd h (by decide)
  have hb : (if s = "" ∨ jsTestHex6 s = false then ("#3c3c3c", true) else (s, false)) =
      ("#3c3c3c", true) := if_pos (Or.inr hfalse)
  simp only [hexToRgbaFull, hb]
  rfl

/-- C5 witness: the fallback on a concrete invalid colour and a concrete
in-range opacity. -/
theorem c5_encode_fallback_witness :
    hexToRgbaFull (some "not-a-color") (JSVal.vStr "0.5") =
      (rgbaString 60 60 60 (if opacityValidB (JSVal.vStr "0.5")
        then jsValToStr (JSVal.vStr "0.5") else "0.7"), true) :=
  c5_encode_fallback "not-a-color" (JSVal.vStr "0.5") (by decide)

/-! ### Claim C4: encode opacity rule -/

theorem numGeLe_iff (n : JSNum) : (numGe0 n && numLe1 n) = true ↔
    ∃ q, n = JSNum.fin q ∧ 0 ≤ q ∧ q ≤ 1 := by
  cases n <;> simp [numGe0, numLe1]

theorem hexToRgba_shape (hex : Option String) (o : JSVal) :
    ∃ R G B, R ≤ 255 ∧ G ≤ 255 ∧ B ≤ 255 ∧
      hexToRgba hex o = rgbaString R G B (if opacityValidB o then jsValToStr o else "0.7") := by
  cases hex with
  | none => exact ⟨60, 60, 60, by decide, by decide, by decide, rfl⟩
  | some s =>
    by_cases hc : s = "" ∨ jsTestHex6 s = false
    · refine ⟨60, 60, 60, by decide, by decide, by decide, ?_⟩
      show (hexToRgbaFull (some s) o).1 = _
      simp only [hexToRgbaFull, if_pos hc]
      rfl
    · refine ⟨hexDigitsVal ((removeFirstHash s.data).take 2),
        hexDigitsVal (((removeFirstHash s.data).drop 2).take 2),
        hexDigitsVal (((removeFirstHash s.data).drop 4).take 2),
        hexDigitsVal_le_255_of_short _ (List.length_take_le 2 _),
        hexDigitsVal_le_255_of_short _ (List.length_take_le 2 _),
        hexDigitsVal_le_255_of_short _ (List.length_take_le 2 _), ?_⟩
      show (hexToRgbaFull (some s) o).1 = _
      simp only [hexToRgbaFull, if_neg hc]

/-- C4: for every hex input and opacity argument, hexToRgba produces
rgba(R, G, B, A) with unpadded base-10 channels at most 255, where A is
the opacity rendered verbatim when it passes the validity guard and the
substitute 0.7 otherwise; and the guard holds exactly for non-null,
non-undefined values whose numeric coercion is a finite number in [0,1]
(so every out-of-range or non-numeric opacity is replaced by 0.7). -/
theorem c4_encode_opacity_rule (hex : Option String) (o : JSVal) :
    (∃ R G B, R ≤ 255 ∧ G ≤ 255 ∧ B ≤ 255 ∧
      hexToRgba hex o = rgbaString R G B (if opacityValidB o then jsValToStr o else "0.7")) ∧
    (opacityValidB o = true ↔ o ≠ JSVal.vNull ∧ o ≠ JSVal.vUndef ∧
      ∃ q : ℚ, jsToNumber o = JSNum.fin q ∧ 0 ≤ q ∧ q ≤ 1) := by
  refine ⟨hexToRgba_shape hex o, ?_⟩
  cases o with
  | vNull => simp [opacityValidB]
  | vUndef => simp [opacityValidB]
  | vNum n =>
    rw [show opacityValidB (JSVal.vNum n) = (numGe0 n && numLe1 n) from rfl, numGeLe_iff]
    simp [jsToNumber]
  | vStr s =>
    rw [show opacityValidB (JSVal.vStr s) =
      (numGe0 (strToNumber s) && numLe1 (strToNumber s)) from rfl, numGeLe_iff]
    simp [jsToNumber]

/-! ### Decode and round-trip lemmas -/

theorem take2_cons (x y : Char) (t : List Char) : List.take 2 (x :: y :: t) = [x, y] := rfl

theorem drop2_cons (x y : Char) (t : List Char) : List.drop 2 (x :: y :: t) = t := rfl

theorem drop4_cons (x y z w : Char) (t : List Char) :
    List.drop 4 (x :: y :: z :: w :: t) = t := rfl

theorem searchRgba_rgbaS (r g b : Nat) (a : String) (ha : a.data ≠ [])
    (haC : ∀ c ∈ a.data, isDigitDotChar c = true) :
    searchRgba (rgbaString r g b a).data =
      some ⟨natReprChars r, natReprChars g, natReprChars b, some a.data⟩ :=
  searchRgba_rgba r g b a.data ha haC

theorem rgbaString_ne_empty (r g b : Nat) (a : String) : rgbaString r g b a ≠ "" := by
  intro he
  have h2 : (rgbaString r g b a).data = ("" : String).data := congrArg String.data he
  simp [rgbaString] at h2

theorem getOpacityFromRgba_rgba (r g b : Nat) (a : String) (ha : a.data ≠ [])
    (haC : ∀ c ∈ a.data, isDigitDotChar c = true) :
    getOpacityFromRgba (rgbaString r g b a) = jsClamp01 (parseFloatDD a.data) := by
  rw [getOpacityFromRgba, if_neg (rgbaString_ne_empty r g b a), searchRgba_rgbaS r g b a ha haC]

theorem rgbaToHex_rgba (r g b : Nat) (a : String) (ha : a.data ≠ [])
    (haC : ∀ c ∈ a.data, isDigitDotChar c = true)
    (hr : r ≤ 255) (hg : g ≤ 255) (hb : b ≤ 255) :
    rgbaToHex (rgbaString r g b a) =
      jsToUpper (String.mk ('#' :: (hexPairOf r ++ hexPairOf g ++ hexPairOf b))) := by
  rw [rgbaToHex, if_neg (rgbaString_ne_empty r g b a), searchRgba_rgbaS r g b a ha haC]
  have e1 : max 0 (min 255 (digitsVal (natReprChars r))) = r := by
    rw [digitsVal_natReprChars]; omega
  have e2 : max 0 (min 255 (digitsVal (natReprChars g))) = g := by
    rw [digitsVal_natReprChars]; omega
  have e3 : max 0 (min 255 (digitsVal (natReprChars b))) = b := by
    rw [digitsVal_natReprChars]; omega
  simp only [e1, e2, e3]

theorem hexToRgbaFull_hexpair (r g b : Nat) (hr : r < 256) (hg : g < 256) (hb : b < 256)
    (o : JSVal) :
    hexToRgbaFull (some (jsToUpper (String.mk ('#' :: (hexPairOf r ++ hexPairOf g ++
        hexPairOf b))))) o =
      (rgbaString r g b (if opacityValidB o then jsValToStr o else "0.7"), false) := by
  have hdata : (jsToUpper (String.mk ('#' :: (hexPairOf r ++ hexPairOf g ++
      hexPairOf b)))).data = '#' :: [Char.toUpper (Nat.digitChar (r / 16)),
        Char.toUpper (Nat.digitChar (r % 16)), Char.toUpper (Nat.digitChar (g / 16)),
        Char.toUpper (Nat.digitChar (g % 16)), Char.toUpper (Nat.digitChar (b / 16)),
        Char.toUpper (Nat.digitChar (b % 16))] := by
    simp [jsToUpper, hexPairOf]
  have hall : ∀ c ∈ [Char.toUpper (Nat.digitChar (r / 16)),
      Char.toUpper (Nat.digitChar (r % 16)), Char.toUpper (Nat.digitChar (g / 16)),
      Char.toUpper (Nat.digitChar (g % 16)), Char.toUpper (Nat.digitChar (b / 16)),
      Char.toUpper (Nat.digitChar (b % 16))], isHexDigitChar c = true := by
    intro c hc
    simp only [List.mem_cons, List.not_mem_nil, or_false] at hc
    rcases hc with h | h | h | h | h | h <;> subst h <;>
      exact isHexDigitChar_toUpper_digitChar _ (by omega)
  have htest : jsTestHex6 (jsToUpper (String.mk ('#' :: (hexPairOf r ++ hexPairOf g ++
      hexPairOf b)))) = true := by
    apply (jsTestHex6_iff _).mpr
    exact ⟨_, hdata, rfl, hall⟩
  have hne : jsToUpper (String.mk ('#' :: (hexPairOf r ++ hexPairOf g ++ hexPairOf b))) ≠ "" := by
    intro he
    have := congrArg String.data he
    rw [hdata] at this
    exact absurd this (by simp)
  have hcond : ¬(jsToUpper (String.mk ('#' :: (hexPairOf r ++ hexPairOf g ++ hexPairOf b))) = ""
      ∨ jsTestHex6 (jsToUpper (String.mk ('#' :: (hexPairOf r ++ hexPairOf g ++
        hexPairOf b)))) = false) := by
    intro hor
    rcases hor with h | h
    · exact hne h
    · rw [htest] at h
      exact Bool.noConfusion h
  simp only [hexToRgbaFull, if_neg hcond, hdata]
  have hrm : removeFirstHash ('#' :: [Char.toUpper (Nat.digitChar (r / 16)),
      Char.toUpper (Nat.digitChar (r % 16)), Char.toUpper (Nat.digitChar (g / 16)),
      Char.toUpper (Nat.digitChar (g % 16)), Char.toUpper (Nat.digitChar (b / 16)),
      Char.toUpper (Nat.digitChar (b % 16))]) = [Char.toUpper (Nat.digitChar (r / 16)),
      Char.toUpper (Nat.digitChar (r % 16)), Char.toUpper (Nat.digitChar (g / 16)),
      Char.toUpper (Nat.digitChar (g % 16)), Char.toUpper (Nat.digitChar (b / 16)),
      Char.toUpper (Nat.digitChar (b % 16))] := by
    simp [removeFirstHash]
  rw [hrm]
  have hv1 : hexDigitsVal [Char.toUpper (Nat.digitChar (r / 16)),
      Char.toUpper (Nat.digitChar (r % 16))] = r := by
    simp only [hexDigitsVal, List.foldl_cons, List.foldl_nil,
      hexDigitVal_toUpper_digitChar _ (show r / 16 < 16 by omega),
      hexDigitVal_toUpper_digitChar _ (show r % 16 < 16 by omega)]
    omega
  have hv2 : hexDigitsVal [Char.toUpper (Nat.digitChar (g / 16)),
      Char.toUpper (Nat.digitChar (g % 16))] = g := by
    simp only [hexDigitsVal, List.foldl_cons, List.foldl_nil,
      hexDigitVal_toUpper_digitChar _ (show g / 16 < 16 by omega),
      hexDigitVal_toUpper_digitChar _ (show g % 16 < 16 by omega)]
    omega
  have hv3 : hexDigitsVal [Char.toUpper (Nat.digitChar (b / 16)),
      Char.toUpper (Nat.digitChar (b % 16))] = b := by
    simp only [hexDigitsVal, List.foldl_cons, List.foldl_nil,
      hexDigitVal_toUpper_digitChar _ (show b / 16 < 16 by omega),
      hexDigitVal_toUpper_digitChar _ (show b % 16 < 16 by omega)]
    omega
  simp only [take2_cons, drop2_cons, drop4_cons, hv1, hv2, hv3]

/-! ### Claim C10: decode clamps alpha -/

/-- C10: on an input of the form rgba(r, g, b, a) with the alpha present
and parseable, getOpacityFromRgba returns exactly the clamp of parseFloat
of the alpha to [0,1]; in particular the result never lies outside [0,1]. -/
theorem c10_decode_clamps_alpha (r g b : Nat) (a : String) (q : ℚ)
    (haC : ∀ c ∈ a.data, isDigitDotChar c = true)
    (hq : parseFloatDD a.data = JSNum.fin q) :
    getOpacityFromRgba (rgbaString r g b a) = JSNum.fin (max 0 (min 1 q)) ∧
      0 ≤ max 0 (min 1 q) ∧ max 0 (min 1 q) ≤ 1 := by
  have ha : a.data ≠ [] := by
    intro he
    rw [he] at hq
    have hnan : parseFloatDD ([] : List Char) = JSNum.nan := rfl
    rw [hnan] at hq
    exact JSNum.noConfusion hq
  refine ⟨?_, le_max_left 0 _, max_le (by norm_num) (min_le_left 1 q)⟩
  rw [getOpacityFromRgba_rgba r g b a ha haC, hq]
  rfl

/-- C10 witness: the clamp on a concrete over-range alpha. -/
theorem c10_decode_clamps_alpha_witness :
    getOpacityFromRgba (rgbaString 10 20 30 "1.5") = JSNum.fin (max 0 (min 1 (3/2))) :=
  (c10_decode_clamps_alpha 10 20 30 "1.5" (3/2) (by decide) (by
    have h1 : parseFloatDD "1.5".data =
        JSNum.fin (((1 : Nat) : ℚ) + ((5 : Nat) : ℚ) / (10 : ℚ) ^ 1) := rfl
    rw [h1]
    congr 1
    norm_num)).1

/-! ### Claim C2: encode-decode round trip -/

/-- C2: for a well-formed rgba(r, g, b, a) input with integer channels at
most 255 and a parseable alpha value in [0,1], decoding and re-encoding
(hexToRgba of rgbaToHex with getOpacityFromRgba) reproduces an rgba string
with exactly the same three channel values, and the alpha value is passed
through exactly: the decoded opacity is precisely the parsed input value
and the re-encoded string carries that exact value (rendered canonically,
not recomputed). -/
theorem c2_roundtrip (r g b : Nat) (a : String) (q : ℚ)
    (hr : r ≤ 255) (hg : g ≤ 255) (hb : b ≤ 255)
    (haC : ∀ c ∈ a.data, isDigitDotChar c = true)
    (hq : parseFloatDD a.data = JSNum.fin q) (h0 : 0 ≤ q) (h1 : q ≤ 1) :
    getOpacityFromRgba (rgbaString r g b a) = JSNum.fin q ∧
    hexToRgba (some (rgbaToHex (rgbaString r g b a)))
        (JSVal.vNum (getOpacityFromRgba (rgbaString r g b a))) =
      rgbaString r g b (ratToDecString q) := by
  have ha : a.data ≠ [] := by
    intro he
    rw [he] at hq
    have hnan : parseFloatDD ([] : List Char) = JSNum.nan := rfl
    rw [hnan] at hq
    exact JSNum.noConfusion hq
  have hclamp : max 0 (min 1 q) = q := by
    rw [min_eq_right h1, max_eq_right h0]
  have hop : getOpacityFromRgba (rgbaString r g b a) = JSNum.fin q := by
    rw [getOpacityFromRgba_rgba r g b a ha haC, hq]
    show JSNum.fin (max 0 (min 1 q)) = JSNum.fin q
    rw [hclamp]
  refine ⟨hop, ?_⟩
  rw [hop, rgbaToHex_rgba r g b a ha haC hr hg hb, hexToRgba,
    hexToRgbaFull_hexpair r g b (by omega) (by omega) (by omega) (JSVal.vNum (JSNum.fin q))]
  have halpha : (if opacityValidB (JSVal.vNum (JSNum.fin q))
      then jsValToStr (JSVal.vNum (JSNum.fin q)) else "0.7") = ratToDecString q := by
    simp [opacityValidB, numGe0, numLe1, jsToNumber, jsValToStr, jsNumToStr, h0, h1]
  rw [halpha]

/-- C2 witness: the round trip on rgba(10, 20, 30, 0.5). -/
theorem c2_roundtrip_witness :
    getOpacityFromRgba (rgbaString 10 20 30 "0.5") = JSNum.fin (1/2) ∧
    hexToRgba (some (rgbaToHex (rgbaString 10 20 30 "0.5")))
        (JSVal.vNum (getOpacityFromRgba (rgbaString 10 20 30 "0.5"))) =
      rgbaString 10 20 30 (ratToDecString (1/2)) :=
  c2_roundtrip 10 20 30 "0.5" (1/2) (by decide) (by decide) (by decide) (by decide)
    (by
      have h1 : parseFloatDD "0.5".data =
          JSNum.fin (((0 : Nat) : ℚ) + ((5 : Nat) : ℚ) / (10 : ℚ) ^ 1) := rfl
      rw [h1]
      congr 1
      norm_num)
    (by norm_num) (by norm_num)

/-! ### Claim C7: legacy-field migration -/

/-- C7: after every applyMenuStyles and after every resetMenuStyles the
style model object exists and carries no legacy followTheme key,
whatever the previous settings and document contents were. -/
theorem c7_followTheme_stripped (d : Dom) (s : Settings) :
    (∃ ms, (applyMenuStyles d s).2.menuStyles = some ms ∧ ms.followTheme = none) ∧
    (∃ ms, (resetMenuStyles d s).2.menuStyles = some ms ∧ ms.followTheme = none) :=
  ⟨⟨_, rfl, rfl⟩, ⟨_, rfl, rfl⟩⟩

/-! ### Claim C8: alpha-slot invariant -/

/-- C8, counterexample: with the item-opacity control holding the empty
string (whose numeric coercion 0 passes the guard) the model slot receives
the string rgba(60, 60, 60, ) with an empty alpha, which is not a valid
rgba encoding, refuting the claim for arbitrary control contents. -/
theorem c8_alpha_slot_not_always_valid :
    (∃ ms, (applyMenuStyles domB { menuStyles := none }).2.menuStyles = some ms ∧
      ms.itemBgColor = some "rgba(60, 60, 60, )") ∧
    specValidRgbaString "rgba(60, 60, 60, )" = false := by
  exact ⟨⟨_, rfl, by decide⟩, by decide⟩

theorem takeWhile_eq_self_of_all (p : Char → Bool) (l : List Char)
    (h : ∀ c ∈ l, p c = true) : l.takeWhile p = l := by
  induction l with
  | nil => rfl
  | cons c t ih =>
    simp only [List.takeWhile_cons, h c (by simp), if_true]
    rw [ih (fun x hx => h x (by simp [hx]))]

theorem dropWhile_eq_nil_of_all (p : Char → Bool) (l : List Char)
    (h : ∀ c ∈ l, p c = true) : l.dropWhile p = [] := by
  induction l with
  | nil => rfl
  | cons c t ih =>
    simp only [List.dropWhile_cons, h c (by simp), if_true]
    exact ih (fun x hx => h x (by simp [hx]))

theorem char_eq_dot_of_toNat (c : Char) (h : c.toNat = 46) : c = '.' := by
  have h2 : Char.ofNat c.toNat = Char.ofNat 46 := by rw [h]
  rw [Char.ofNat_toNat] at h2
  rw [h2]

theorem isDigitChar_of_dotfree (c : Char) (hdd : isDigitDotChar c = true) (hne : c ≠ '.') :
    isDigitChar c = true := by
  simp only [isDigitDotChar, Bool.or_eq_true, decide_eq_true_eq] at hdd
  rcases hdd with h | h
  · exact h
  · exact absurd (char_eq_dot_of_toNat c h) hne

theorem digitsVal_nil : digitsVal [] = 0 := rfl

theorem parseDecBody_one (l : List Char) (hne : l ≠ [])
    (hall : ∀ c ∈ l, isDigitDotChar c = true) (hcount : l.count '.' ≤ 1) :
    parseDecBody 1 l = parseFloatDD l := by
  have hInf : l ≠ "Infinity".data := by
    intro he
    subst he
    exact absurd (hall 'I' (by decide)) (by decide)
  cases hr1 : l.dropWhile isDigitChar with
  | nil =>
    have hip : l.takeWhile isDigitChar = l := by
      have h2 := List.takeWhile_append_dropWhile (p := isDigitChar) (l := l)
      rw [hr1, List.append_nil] at h2
      exact h2
    have hipne : l.takeWhile isDigitChar ≠ [] := by rw [hip]; exact hne
    simp [parseDecBody, parseFloatDD, hInf, hr1, hipne, digitsVal_nil]
  | cons cd rt =>
    have hcdmem : cd ∈ l := by
      have hsub : (l.dropWhile isDigitChar).Sublist l := List.dropWhile_sublist isDigitChar
      exact hsub.mem (by rw [hr1]; simp)
    have hcddd : isDigitDotChar cd = true := hall cd hcdmem
    have hcdnotdig : isDigitChar cd = false := by
      have h2 := List.head?_dropWhile_not isDigitChar l
      rw [hr1] at h2
      simpa using h2
    have hcddot : cd = '.' := by
      simp only [isDigitDotChar, Bool.or_eq_true, decide_eq_true_eq] at hcddd
      rcases hcddd with h | h
      · rw [h] at hcdnotdig; exact Bool.noConfusion hcdnotdig
      · exact char_eq_dot_of_toNat cd h
    subst hcddot
    have hsplit : l.takeWhile isDigitChar ++ '.' :: rt = l := by
      have h2 := List.takeWhile_append_dropWhile (p := isDigitChar) (l := l)
      rw [hr1] at h2
      exact h2
    have hrtdig : ∀ c ∈ rt, isDigitChar c = true := by
      intro c hc
      have hcl : c ∈ l := by rw [← hsplit]; simp [hc]
      have hcnt : rt.count '.' = 0 := by
        have h2 : (l.takeWhile isDigitChar ++ '.' :: rt).count '.' = l.count '.' := by
          rw [hsplit]
        rw [List.count_append, List.count_cons_self] at h2
        omega
      have hcne : c ≠ '.' := by
        intro he
        subst he
        exact absurd hc (List.count_eq_zero.mp hcnt)
      exact isDigitChar_of_dotfree c (hall c hcl) hcne
    have hfp : rt.takeWhile isDigitChar = rt := takeWhile_eq_self_of_all _ _ hrtdig
    have hr2 : rt.dropWhile isDigitChar = [] := dropWhile_eq_nil_of_all _ _ hrtdig
    by_cases hc : l.takeWhile isDigitChar = [] ∧ rt = []
    · simp [parseDecBody, parseFloatDD, hInf, hr1, hfp, hr2, hc]
    · simp [parseDecBody, parseFloatDD, hInf, hr1, hfp, hr2, hc]

theorem strToNumber_plain (s : String) (h : plainDecimalStr s = true) :
    strToNumber s = parseFloatDD s.data := by
  have hcomp := h
  simp only [plainDecimalStr, Bool.and_eq_true, decide_eq_true_eq, List.all_eq_true] at hcomp
  obtain ⟨⟨⟨hne, hall⟩, hcount⟩, -⟩ := hcomp
  have htrim : jsTrimChars s.data = s.data :=
    jsTrimChars_eq_self _ (fun c hc => space_of_isDigitDotChar c (hall c hc))
  rw [strToNumber, htrim]
  cases hd : s.data with
  | nil => exact absurd hd hne
  | cons c1 rest1 =>
    rw [hd] at hall hcount
    have hnotin : ∀ c ∈ c1 :: rest1, ∀ x : Char, x.toNat < 43 ∨ (43 ≤ x.toNat ∧ x.toNat ≤ 45 ∧
        x.toNat ≠ 46) ∨ 57 < x.toNat → c ≠ x := by
      intro c hc x hx he
      subst he
      have h3 := hall c hc
      simp only [isDigitDotChar, isDigitChar, Bool.or_eq_true, Bool.and_eq_true,
        decide_eq_true_eq] at h3
      omega
    have hnoplus : c1 ≠ '+' := hnotin c1 (by simp) '+' (by decide)
    have hnominus : c1 ≠ '-' := hnotin c1 (by simp) '-' (by decide)
    cases rest1 with
    | nil =>
      simp only [hnoplus, hnominus, if_false, reduceIte]
      exact parseDecBody_one [c1] (by simp) hall hcount
    | cons c2 rest2 =>
      have hc2 : c2 ∈ c1 :: c2 :: rest2 := by simp
      have hx : ¬(c1 = '0' ∧ (c2 = 'x' ∨ c2 = 'X')) := by
        rintro ⟨-, h2 | h2⟩
        · exact hnotin c2 hc2 'x' (by decide) h2
        · exact hnotin c2 hc2 'X' (by decide) h2
      have ho : ¬(c1 = '0' ∧ (c2 = 'o' ∨ c2 = 'O')) := by
        rintro ⟨-, h2 | h2⟩
        · exact hnotin c2 hc2 'o' (by decide) h2
        · exact hnotin c2 hc2 'O' (by decide) h2
      have hb : ¬(c1 = '0' ∧ (c2 = 'b' ∨ c2 = 'B')) := by
        rintro ⟨-, h2 | h2⟩
        · exact hnotin c2 hc2 'b' (by decide) h2
        · exact hnotin c2 hc2 'B' (by decide) h2
      simp only [hx, ho, hb, hnoplus, hnominus, if_false, reduceIte]
      exact parseDecBody_one (c1 :: c2 :: rest2) (by simp) hall hcount

theorem specDecimalOk_of_valid (str : String) (hp : plainDecimalStr str = true)
    (hv : opacityValidB (JSVal.vStr str) = true) : specDecimalOk str.data = true := by
  have hcomp := hp
  simp only [plainDecimalStr, Bool.and_eq_true, decide_eq_true_eq, List.all_eq_true,
    List.any_eq_true] at hcomp
  obtain ⟨⟨⟨hne, hall⟩, hcount⟩, hany⟩ := hcomp
  have hv2 : (numGe0 (strToNumber str) && numLe1 (strToNumber str)) = true := hv
  obtain ⟨q, heq, h0, h1⟩ := (numGeLe_iff _).mp hv2
  rw [strToNumber_plain str hp] at heq
  unfold specDecimalOk
  rw [heq]
  simp only [Bool.and_eq_true]
  refine ⟨⟨⟨List.all_eq_true.mpr hall, decide_eq_true hcount⟩, List.any_eq_true.mpr hany⟩, ?_⟩
  exact decide_eq_true ⟨h0, h1⟩

theorem specDecimalOk_str07 : specDecimalOk "0.7".data = true := by
  have h1 : parseFloatDD "0.7".data =
      JSNum.fin (((0 : Nat) : ℚ) + ((7 : Nat) : ℚ) / (10 : ℚ) ^ (1 : Nat)) := rfl
  have h2 : (0 : ℚ) ≤ ((0 : Nat) : ℚ) + ((7 : Nat) : ℚ) / (10 : ℚ) ^ (1 : Nat) ∧
      ((0 : Nat) : ℚ) + ((7 : Nat) : ℚ) / (10 : ℚ) ^ (1 : Nat) ≤ 1 := by norm_num
  unfold specDecimalOk
  rw [h1]
  simp only [Bool.and_eq_true]
  exact ⟨⟨⟨by decide, by decide⟩, by decide⟩, decide_eq_true h2⟩

theorem specDecimalOk_str085 : specDecimalOk "0.85".data = true := by
  have h1 : parseFloatDD "0.85".data =
      JSNum.fin (((0 : Nat) : ℚ) + ((85 : Nat) : ℚ) / (10 : ℚ) ^ (2 : Nat)) := rfl
  have h2 : (0 : ℚ) ≤ ((0 : Nat) : ℚ) + ((85 : Nat) : ℚ) / (10 : ℚ) ^ (2 : Nat) ∧
      ((0 : Nat) : ℚ) + ((85 : Nat) : ℚ) / (10 : ℚ) ^ (2 : Nat) ≤ 1 := by norm_num
  unfold specDecimalOk
  rw [h1]
  simp only [Bool.and_eq_true]
  exact ⟨⟨⟨by decide, by decide⟩, by decide⟩, decide_eq_true h2⟩

theorem jsTestHex6_eq (s : String) (c : Char) (rest : List Char) (h : s.data = c :: rest) :
    jsTestHex6 s = (decide (c = '#') && rest.length == 6 && rest.all isHexDigitChar) := by
  unfold jsTestHex6
  rw [h]

theorem jsTestHex6_rgbaString (R G B : Nat) (A : String) :
    jsTestHex6 (rgbaString R G B A) = false := by
  have hd : (rgbaString R G B A).data = 'r' :: ('g' :: 'b' :: 'a' :: '(' ::
      (natReprChars R ++ ',' :: ' ' :: (natReprChars G ++ ',' :: ' ' ::
        (natReprChars B ++ ',' :: ' ' :: (A.data ++ [')']))))) := by
    simp [rgbaString]
  rw [jsTestHex6_eq _ _ _ hd]
  simp

theorem take5_cons (c1 c2 c3 c4 c5 : Char) (t : List Char) :
    List.take 5 (c1 :: c2 :: c3 :: c4 :: c5 :: t) = [c1, c2, c3, c4, c5] := rfl

theorem drop5_cons (c1 c2 c3 c4 c5 : Char) (t : List Char) :
    List.drop 5 (c1 :: c2 :: c3 :: c4 :: c5 :: t) = t := rfl

theorem specChannelOk_natRepr (R : Nat) (h : R ≤ 255) :
    specChannelOk (natReprChars R) = true := by
  unfold specChannelOk
  simp only [Bool.and_eq_true]
  refine ⟨⟨decide_eq_true (natReprChars_ne_nil R),
    List.all_eq_true.mpr (natReprChars_all_digits R)⟩, ?_⟩
  rw [digitsVal_natReprChars]
  exact decide_eq_true h

theorem specValid_rgbaString (R G B : Nat) (A : String) (hR : R ≤ 255) (hG : G ≤ 255)
    (hB : B ≤ 255) (hA : specDecimalOk A.data = true) :
    specValidRgbaString (rgbaString R G B A) = true := by
  have hAall : ∀ c ∈ A.data, isDigitDotChar c = true := by
    have hcomp := hA
    simp only [specDecimalOk, Bool.and_eq_true, List.all_eq_true] at hcomp
    exact hcomp.1.1.1
  have hd : (rgbaString R G B A).data = 'r' :: 'g' :: 'b' :: 'a' :: '(' ::
      (natReprChars R ++ ',' :: ' ' :: (natReprChars G ++ ',' :: ' ' ::
        (natReprChars B ++ ',' :: ' ' :: (A.data ++ [')'])))) := by
    simp [rgbaString]
  have hcomma : isDigitChar ',' = false := by decide
  have hparen : isDigitDotChar ')' = false := by decide
  have hsp : jsSpaceChar ' ' = true := by decide
  have t1 := takeWhile_all_append isDigitChar (natReprChars R) ','
    (' ' :: (natReprChars G ++ ',' :: ' ' :: (natReprChars B ++ ',' :: ' ' :: (A.data ++ [')']))))
    (natReprChars_all_digits R) hcomma
  have d1 := dropWhile_all_append isDigitChar (natReprChars R) ','
    (' ' :: (natReprChars G ++ ',' :: ' ' :: (natReprChars B ++ ',' :: ' ' :: (A.data ++ [')']))))
    (natReprChars_all_digits R) hcomma
  have sg : (natReprChars G ++ ',' :: ' ' :: (natReprChars B ++ ',' :: ' ' ::
      (A.data ++ [')']))).dropWhile jsSpaceChar
      = natReprChars G ++ ',' :: ' ' :: (natReprChars B ++ ',' :: ' ' :: (A.data ++ [')'])) :=
    dropWhile_space_stops _ _ (natReprChars_ne_nil G)
      (fun c hc => space_of_isDigitChar c (natReprChars_all_digits G c hc))
  have t2 := takeWhile_all_append isDigitChar (natReprChars G) ','
    (' ' :: (natReprChars B ++ ',' :: ' ' :: (A.data ++ [')'])))
    (natReprChars_all_digits G) hcomma
  have d2 := dropWhile_all_append isDigitChar (natReprChars G) ','
    (' ' :: (natReprChars B ++ ',' :: ' ' :: (A.data ++ [')'])))
    (natReprChars_all_digits G) hcomma
  have sb : (natReprChars B ++ ',' :: ' ' :: (A.data ++ [')'])).dropWhile jsSpaceChar
      = natReprChars B ++ ',' :: ' ' :: (A.data ++ [')']) :=
    dropWhile_space_stops _ _ (natReprChars_ne_nil B)
      (fun c hc => space_of_isDigitChar c (natReprChars_all_digits B c hc))
  have t3 := takeWhile_all_append isDigitChar (natReprChars B) ',' (' ' :: (A.data ++ [')']))
    (natReprChars_all_digits B) hcomma
  have d3 := dropWhile_all_append isDigitChar (natReprChars B) ',' (' ' :: (A.data ++ [')']))
    (natReprChars_all_digits B) hcomma
  have sa : (A.data ++ [')']).dropWhile jsSpaceChar = A.data ++ [')'] := by
    cases hAd : A.data with
    | nil => simp [List.dropWhile_cons, show jsSpaceChar ')' = false from by decide]
    | cons c t =>
      apply dropWhile_space_stops _ _ (by simp)
      intro x hx
      exact space_of_isDigitDotChar x (hAall x (by rw [hAd]; exact hx))
  have t4 : (A.data ++ [')']).takeWhile isDigitDotChar = A.data :=
    takeWhile_all_append isDigitDotChar A.data ')' [] hAall hparen
  have d4 : (A.data ++ [')']).dropWhile isDigitDotChar = [')'] :=
    dropWhile_all_append isDigitDotChar A.data ')' [] hAall hparen
  simp only [specValidRgbaString]
  rw [hd]
  rw [take5_cons, drop5_cons]
  rw [if_pos (by decide : (['r', 'g', 'b', 'a', '('] : List Char) = "rgba(".data)]
  simp only [t1, d1, specAfterChannel, List.dropWhile_cons, hsp, if_true, reduceIte, sg, t2, d2,
    sb, t3, d3, sa, t4, d4]
  simp only [Bool.and_eq_true]
  exact ⟨⟨⟨⟨specChannelOk_natRepr R hR, specChannelOk_natRepr G hG⟩,
    specChannelOk_natRepr B hB⟩, hA⟩, by decide⟩

theorem safeGetValueT_fst (d : Dom) (id : String) (dflt : JSVal) :
    (safeGetValueT d id dflt).1 =
      (match d.vals id with
        | some v => JSVal.vStr v
        | none => dflt) := by
  cases h : d.vals id <;> simp [safeGetValueT, h]

theorem c8_slot (hex : Option String) (v : Option String) (dq : ℚ)
    (hval : opacityValidB (JSVal.vNum (JSNum.fin dq)) = true)
    (hprint : specDecimalOk (jsValToStr (JSVal.vNum (JSNum.fin dq))).data = true) :
    ∃ R G B A, R ≤ 255 ∧ G ≤ 255 ∧ B ≤ 255 ∧
      hexToRgba hex (match v with
        | some str => JSVal.vStr str
        | none => JSVal.vNum (JSNum.fin dq)) = rgbaString R G B A ∧
      jsTestHex6 (rgbaString R G B A) = false ∧
      (opacityControlGood v = true → specValidRgbaString (rgbaString R G B A) = true) := by
  obtain ⟨R, G, B, hR, hG, hB, heq⟩ := hexToRgba_shape hex
    (match v with
      | some str => JSVal.vStr str
      | none => JSVal.vNum (JSNum.fin dq))
  refine ⟨R, G, B, _, hR, hG, hB, heq, jsTestHex6_rgbaString R G B _, ?_⟩
  intro hgood
  apply specValid_rgbaString R G B _ hR hG hB
  cases v with
  | none =>
    rw [hval]
    exact hprint
  | some str =>
    have hp : plainDecimalStr str = true := hgood
    by_cases hv : opacityValidB (JSVal.vStr str) = true
    · rw [hv]
      exact specDecimalOk_of_valid str hp hv
    · rw [Bool.not_eq_true] at hv
      rw [hv]
      exact specDecimalOk_str07

theorem jsValToStr_rat07 : jsValToStr (JSVal.vNum (JSNum.fin rat07)) = "0.7" := by decide

theorem jsValToStr_rat085 : jsValToStr (JSVal.vNum (JSNum.fin rat085)) = "0.85" := by decide

/-- C8 (amended): for every content of the form controls, applyMenuStyles
stores in itemBgColor and menuBgColor strings of the shape
rgba(R, G, B, A) with integer channels in [0,255] — never a bare hex
string; these are valid rgba encodings whenever the corresponding opacity
control is missing or holds a plain decimal numeral (as a real slider
does), but an exotic control string whose numeric coercion lands in [0,1]
is copied into the alpha position verbatim and can break validity. -/
theorem c8_alpha_slots_amended (d : Dom) (s : Settings) :
    ∃ ms, (applyMenuStyles d s).2.menuStyles = some ms ∧
      (∃ R G B A, R ≤ 255 ∧ G ≤ 255 ∧ B ≤ 255 ∧
        ms.itemBgColor = some (rgbaString R G B A) ∧
        jsTestHex6 (rgbaString R G B A) = false ∧
        (opacityControlGood (d.vals "qr-item-opacity") = true →
          specValidRgbaString (rgbaString R G B A) = true)) ∧
      (∃ R G B A, R ≤ 255 ∧ G ≤ 255 ∧ B ≤ 255 ∧
        ms.menuBgColor = some (rgbaString R G B A) ∧
        jsTestHex6 (rgbaString R G B A) = false ∧
        (opacityControlGood (d.vals "qr-menu-opacity") = true →
          specValidRgbaString (rgbaString R G B A) = true)) := by
  have hitem : (applyMenuStyles d s).2.menuStyles.map MenuStyles.itemBgColor =
      some (some (hexToRgba (getColorValueT d "qr-item-bgcolor-picker").1
        (safeGetValueT d "qr-item-opacity" (JSVal.vNum (JSNum.fin rat07))).1)) := rfl
  have hmenu : (applyMenuStyles d s).2.menuStyles.map MenuStyles.menuBgColor =
      some (some (hexToRgba (getColorValueT d "qr-menu-bgcolor-picker").1
        (safeGetValueT d "qr-menu-opacity" (JSVal.vNum (JSNum.fin rat085))).1)) := rfl
  obtain ⟨R1, G1, B1, A1, hR1, hG1, hB1, heq1, hbare1, hvalid1⟩ :=
    c8_slot (getColorValueT d "qr-item-bgcolor-picker").1 (d.vals "qr-item-opacity") rat07
      (by decide) (by rw [jsValToStr_rat07]; exact specDecimalOk_str07)
  obtain ⟨R2, G2, B2, A2, hR2, hG2, hB2, heq2, hbare2, hvalid2⟩ :=
    c8_slot (getColorValueT d "qr-menu-bgcolor-picker").1 (d.vals "qr-menu-opacity") rat085
      (by decide) (by rw [jsValToStr_rat085]; exact specDecimalOk_str085)
  rw [← safeGetValueT_fst d "qr-item-opacity" (JSVal.vNum (JSNum.fin rat07))] at heq1
  rw [← safeGetValueT_fst d "qr-menu-opacity" (JSVal.vNum (JSNum.fin rat085))] at heq2
  refine ⟨_, rfl, ⟨R1, G1, B1, A1, hR1, hG1, hB1, ?_, hbare1, hvalid1⟩,
    ⟨R2, G2, B2, A2, hR2, hG2, hB2, ?_, hbare2, hvalid2⟩⟩
  · show some (hexToRgba (getColorValueT d "qr-item-bgcolor-picker").1
      (safeGetValueT d "qr-item-opacity" (JSVal.vNum (JSNum.fin rat07))).1) = _
    rw [heq1]
  · show some (hexToRgba (getColorValueT d "qr-menu-bgcolor-picker").1
      (safeGetValueT d "qr-menu-opacity" (JSVal.vNum (JSNum.fin rat085))).1) = _
    rw [heq2]

/-- C8 witness: evaluating the amended statement on the concrete document
whose controls are all present and well formed. -/
theorem c8_alpha_slots_amended_witness :
    ∃ ms, (applyMenuStyles domA { menuStyles := none }).2.menuStyles = some ms ∧
      (∃ R G B A, R ≤ 255 ∧ G ≤ 255 ∧ B ≤ 255 ∧
        ms.itemBgColor = some (rgbaString R G B A) ∧
        jsTestHex6 (rgbaString R G B A) = false ∧
        (opacityControlGood (domA.vals "qr-item-opacity") = true →
          specValidRgbaString (rgbaString R G B A) = true)) ∧
      (∃ R G B A, R ≤ 255 ∧ G ≤ 255 ∧ B ≤ 255 ∧
        ms.menuBgColor = some (rgbaString R G B A) ∧
        jsTestHex6 (rgbaString R G B A) = false ∧
        (opacityControlGood (domA.vals "qr-menu-opacity") = true →
          specValidRgbaString (rgbaString R G B A) = true)) :=
  c8_alpha_slots_amended domA { menuStyles := none }

/-! ### Claim C6: FieldSync -/

theorem setVal_look (d : Dom) (id v j : String) :
    (setVal d id v).vals j =
      if j = id ∧ (d.vals id).isSome then some v else d.vals j := by
  unfold setVal
  by_cases hs : (d.vals id).isSome
  · rw [if_pos hs]
    by_cases hj : j = id
    · subst hj
      simp [hs]
    · simp [hj]
  · rw [if_neg hs]
    by_cases hj : j = id
    · subst hj
      simp [hs]
    · simp [hj]

theorem picker_ne_text (base : String) : base ++ "-picker" ≠ base ++ "-text" := by
  intro he
  have hl := congrArg String.length he
  rw [String.length_append, String.length_append] at hl
  have h1 : ("-picker" : String).length = 7 := by decide
  have h2 : ("-text" : String).length = 5 := by decide
  omega

/-- C6, counterexample: after the input event with the lowercase value
ff00ff the picker holds the hash-prefixed value with its case preserved
while the text control is uppercased, so the picker is not set to the
uppercase normalisation; and an invalid commit sets the text control to
the uppercase of the picker, not to the picker's value itself. -/
theorem c6_fieldsync_not_uppercase_picker :
    (colorTextInputHandler domC6 "qr-item-bgcolor").vals "qr-item-bgcolor-picker" =
        some "#ff00ff" ∧
    (colorTextInputHandler domC6 "qr-item-bgcolor").vals "qr-item-bgcolor-text" =
        some "#FF00FF" ∧
    ("#ff00ff" : String) ≠ "#FF00FF" ∧
    (colorTextChangeHandler domC6b "qr-item-bgcolor").vals "qr-item-bgcolor-text" =
        some "#FF00FF" ∧
    domC6b.vals "qr-item-bgcolor-picker" = some "#ff00ff" ∧
    ("#FF00FF" : String) ≠ "#ff00ff" := by
  refine ⟨by decide, by decide, by decide, by decide, by decide, by decide⟩

/-- C6 (amended): for a pair whose picker and text controls both exist, an
input event whose trimmed text value matches the optional-hash hex pattern
sets the picker to the hash-prefixed value with its case preserved and the
text control to the uppercase of that value, leaving every other control
untouched; a non-matching input leaves the document unchanged; and a
commit with a still-invalid value reverts the text control to the
uppercase of the picker's current value, touching nothing else. -/
theorem c6_fieldsync_amended (d : Dom) (base tv pv : String)
    (ht : d.vals (base ++ "-text") = some tv)
    (hp : d.vals (base ++ "-picker") = some pv) :
    (jsTestOptHex6 (jsTrimS tv) = true →
      (colorTextInputHandler d base).vals (base ++ "-picker") =
        some (if (jsTrimS tv).data.head? = some '#' then jsTrimS tv
          else String.mk ('#' :: (jsTrimS tv).data)) ∧
      (colorTextInputHandler d base).vals (base ++ "-text") =
        some (jsToUpper (if (jsTrimS tv).data.head? = some '#' then jsTrimS tv
          else String.mk ('#' :: (jsTrimS tv).data))) ∧
      ∀ j, j ≠ base ++ "-picker" → j ≠ base ++ "-text" →
        (colorTextInputHandler d base).vals j = d.vals j) ∧
    (jsTestOptHex6 (jsTrimS tv) = false → colorTextInputHandler d base = d) ∧
    (jsTestOptHex6 (jsTrimS tv) = false →
      (colorTextChangeHandler d base).vals (base ++ "-text") = some (jsToUpper pv) ∧
      ∀ j, j ≠ base ++ "-text" → (colorTextChangeHandler d base).vals j = d.vals j) := by
  have hne := picker_ne_text base
  refine ⟨?_, ?_, ?_⟩
  · intro hok
    unfold colorTextInputHandler
    rw [ht]
    simp only [Option.getD_some, hok, if_true, reduceIte]
    have hpsome : (d.vals (base ++ "-picker")).isSome = true := by rw [hp]; rfl
    refine ⟨?_, ?_, ?_⟩
    · rw [setVal_look, if_neg (by intro hand; exact hne.symm hand.1.symm), setVal_look,
        if_pos ⟨rfl, hpsome⟩]
    · have hinner : ∀ c : String,
          ((setVal d (base ++ "-picker") c).vals (base ++ "-text")).isSome = true := by
        intro c
        rw [setVal_look, if_neg (by intro hand; exact hne hand.1.symm), ht]
        rfl
      rw [setVal_look, if_pos ⟨rfl, hinner _⟩]
    · intro j hj1 hj2
      rw [setVal_look, if_neg (by intro hand; exact hj2 hand.1), setVal_look,
        if_neg (by intro hand; exact hj1 hand.1)]
  · intro hbad
    unfold colorTextInputHandler
    rw [ht]
    simp only [Option.getD_some, hbad]
    rfl
  · intro hbad
    unfold colorTextChangeHandler
    rw [ht]
    simp only [Option.getD_some, hbad, Bool.false_eq_true, if_false, reduceIte]
    rw [hp]
    have htsome : (d.vals (base ++ "-text")).isSome = true := by rw [ht]; rfl
    refine ⟨?_, ?_⟩
    · rw [setVal_look, if_pos ⟨rfl, htsome⟩]
      rfl
    · intro j hj
      rw [setVal_look, if_neg (by intro hand; exact hj hand.1)]

/-- C6 witness: the amended statement applied to a concrete document with
a valid hashless lowercase edit. -/
theorem c6_fieldsync_amended_witness :
    (colorTextInputHandler domC6 "qr-item-bgcolor").vals "qr-item-bgcolor-picker" =
      some (if (jsTrimS "ff00ff").data.head? = some '#' then jsTrimS "ff00ff"
        else String.mk ('#' :: (jsTrimS "ff00ff").data)) := by
  have h := (c6_fieldsync_amended domC6 "qr-item-bgcolor" "ff00ff" "#000000"
    (by decide) (by decide)).1 (by decide)
  exact h.1

/-! ### Claim C1: end-to-end apply -/

theorem setVal_menuPresent (d : Dom) (id v : String) :
    (setVal d id v).menuPresent = d.menuPresent := by
  unfold setVal
  split <;> rfl

theorem setCssVar_look (d : Dom) (n v j : String) :
    (setCssVar d n v).cssVars j = if j = n then some v else d.cssVars j := rfl

theorem closePanelT_cssVars (d : Dom) : (closeMenuStylePanelT d).1.cssVars = d.cssVars := by
  unfold closeMenuStylePanelT
  split <;> rfl

theorem getColorValueT_fst (d : Dom) (pid : String) :
    (getColorValueT d pid).1 =
      (match d.vals (pid ++ "-text") with
        | some v => if jsTestHex6 v then some v else d.vals pid
        | none => d.vals pid) := by
  cases h : d.vals (pid ++ "-text") with
  | none => simp [getColorValueT, h]
  | some v =>
    by_cases ht : jsTestHex6 v = true <;> simp [getColorValueT, h, ht]

theorem applyMenuStyles_fst (d : Dom) (s : Settings) :
    (applyMenuStyles d s).1 =
      (closeMenuStylePanelT (updateMenuStylesUIT d (applyMenuStyles d s).2).1).1 := rfl

/-- C1: on a panel whose item-background text control has received the
keystroke value ff00ff (no hash) through the FieldSync input listener,
whose item-opacity slider holds 0.9, and whose menu root exists,
applyMenuStyles stores exactly rgba(255, 0, 255, 0.9) in the model's
itemBgColor slot and writes that same string into the live CSS variable.
(The id the source derives for the preferred text control, picker id plus
-text, does not exist in the panel, so the value always flows through the
picker, which the input listener has synchronised.) -/
theorem c1_end_to_end (d : Dom) (s : Settings)
    (ht : d.vals "qr-item-bgcolor-text" = some "ff00ff")
    (hpk : (d.vals "qr-item-bgcolor-picker").isSome = true)
    (hop : d.vals "qr-item-opacity" = some "0.9")
    (hph : d.vals "qr-item-bgcolor-picker-text" = none)
    (hmenu : d.menuPresent = true) :
    ∃ ms, (applyMenuStyles (colorTextInputHandler d "qr-item-bgcolor") s).2.menuStyles =
        some ms ∧
      ms.itemBgColor = some "rgba(255, 0, 255, 0.9)" ∧
      (applyMenuStyles (colorTextInputHandler d "qr-item-bgcolor") s).1.cssVars
        "--qr-item-bg-color" = some "rgba(255, 0, 255, 0.9)" := by
  have hCval : String.mk ('#' :: (jsTrimS "ff00ff").data) = "#ff00ff" := by decide
  have hd1 : colorTextInputHandler d "qr-item-bgcolor" =
      setVal (setVal d "qr-item-bgcolor-picker" "#ff00ff")
        "qr-item-bgcolor-text" (jsToUpper "#ff00ff") := by
    unfold colorTextInputHandler
    rw [(by decide : ("qr-item-bgcolor" ++ "-text" : String) = "qr-item-bgcolor-text"),
      (by decide : ("qr-item-bgcolor" ++ "-picker" : String) = "qr-item-bgcolor-picker"), ht]
    simp only [Option.getD_some]
    rw [if_pos (by decide : jsTestOptHex6 (jsTrimS "ff00ff") = true),
      if_neg (by decide : ¬(jsTrimS "ff00ff").data.head? = some '#'), hCval]
  have h1p : (colorTextInputHandler d "qr-item-bgcolor").vals "qr-item-bgcolor-picker" =
      some "#ff00ff" := by
    rw [hd1, setVal_look,
      if_neg (by intro hand; exact (by decide :
        ("qr-item-bgcolor-picker" : String) ≠ "qr-item-bgcolor-text") hand.1),
      setVal_look, if_pos ⟨rfl, hpk⟩]
  have h1o : (colorTextInputHandler d "qr-item-bgcolor").vals "qr-item-opacity" =
      some "0.9" := by
    rw [hd1, setVal_look,
      if_neg (by intro hand; exact (by decide :
        ("qr-item-opacity" : String) ≠ "qr-item-bgcolor-text") hand.1),
      setVal_look,
      if_neg (by intro hand; exact (by decide :
        ("qr-item-opacity" : String) ≠ "qr-item-bgcolor-picker") hand.1)]
    exact hop
  have h1ph : (colorTextInputHandler d "qr-item-bgcolor").vals "qr-item-bgcolor-picker-text" =
      none := by
    rw [hd1, setVal_look,
      if_neg (by intro hand; exact (by decide :
        ("qr-item-bgcolor-picker-text" : String) ≠ "qr-item-bgcolor-text") hand.1),
      setVal_look,
      if_neg (by intro hand; exact (by decide :
        ("qr-item-bgcolor-picker-text" : String) ≠ "qr-item-bgcolor-picker") hand.1)]
    exact hph
  have h1m : (colorTextInputHandler d "qr-item-bgcolor").menuPresent = true := by
    rw [hd1, setVal_menuPresent, setVal_menuPresent]
    exact hmenu
  have hgc : (getColorValueT (colorTextInputHandler d "qr-item-bgcolor")
      "qr-item-bgcolor-picker").1 = some "#ff00ff" := by
    rw [getColorValueT_fst,
      (by decide : ("qr-item-bgcolor-picker" ++ "-text" : String) = "qr-item-bgcolor-picker-text"),
      h1ph]
    exact h1p
  have hso : (safeGetValueT (colorTextInputHandler d "qr-item-bgcolor") "qr-item-opacity"
      (JSVal.vNum (JSNum.fin rat07))).1 = JSVal.vStr "0.9" := by
    rw [safeGetValueT_fst, h1o]
  have hnum : strToNumber "0.9" =
      JSNum.fin ((1 : ℚ) * (((0 : Nat) : ℚ) + ((9 : Nat) : ℚ) / (10 : ℚ) ^ (1 : Nat))) := rfl
  have hge : numGe0 (JSNum.fin ((1 : ℚ) * (((0 : Nat) : ℚ) +
      ((9 : Nat) : ℚ) / (10 : ℚ) ^ (1 : Nat)))) = true := by
    show decide ((0 : ℚ) ≤ (1 : ℚ) * (((0 : Nat) : ℚ) +
      ((9 : Nat) : ℚ) / (10 : ℚ) ^ (1 : Nat))) = true
    exact decide_eq_true (by norm_num)
  have hle : numLe1 (JSNum.fin ((1 : ℚ) * (((0 : Nat) : ℚ) +
      ((9 : Nat) : ℚ) / (10 : ℚ) ^ (1 : Nat)))) = true := by
    show decide ((1 : ℚ) * (((0 : Nat) : ℚ) +
      ((9 : Nat) : ℚ) / (10 : ℚ) ^ (1 : Nat)) ≤ 1) = true
    exact decide_eq_true (by norm_num)
  have hvalid : opacityValidB (JSVal.vStr "0.9") = true := by
    show (numGe0 (strToNumber "0.9") && numLe1 (strToNumber "0.9")) = true
    rw [hnum, hge, hle]
    rfl
  have henc : hexToRgba (some "#ff00ff") (JSVal.vStr "0.9") = "rgba(255, 0, 255, 0.9)" := by
    show (hexToRgbaFull (some "#ff00ff") (JSVal.vStr "0.9")).1 = _
    simp only [hexToRgbaFull,
      if_neg (by decide : ¬(("#ff00ff" : String) = "" ∨ jsTestHex6 "#ff00ff" = false)),
      hvalid, if_true, reduceIte]
    decide
  refine ⟨_, rfl, ?_, ?_⟩
  · show some (hexToRgba (getColorValueT (colorTextInputHandler d "qr-item-bgcolor")
      "qr-item-bgcolor-picker").1 (safeGetValueT (colorTextInputHandler d "qr-item-bgcolor")
        "qr-item-opacity" (JSVal.vNum (JSNum.fin rat07))).1) = some "rgba(255, 0, 255, 0.9)"
    rw [hgc, hso, henc]
  · rw [applyMenuStyles_fst, closePanelT_cssVars]
    unfold updateMenuStylesUIT
    rw [if_pos h1m]
    show (setCssVar _ "--qr-menu-border-color" _).cssVars "--qr-item-bg-color" = _
    rw [setCssVar_look, if_neg (by decide), setCssVar_look, if_neg (by decide),
      setCssVar_look, if_neg (by decide), setCssVar_look, if_neg (by decide),
      setCssVar_look, if_neg (by decide), setCssVar_look, if_neg (by decide),
      setCssVar_look, if_pos rfl]
    show some (orFalsy (some (hexToRgba (getColorValueT
      (colorTextInputHandler d "qr-item-bgcolor") "qr-item-bgcolor-picker").1
      (safeGetValueT (colorTextInputHandler d "qr-item-bgcolor") "qr-item-opacity"
        (JSVal.vNum (JSNum.fin rat07))).1)) "rgba(60, 60, 60, 0.7)") = _
    rw [hgc, hso, henc]
    rfl

/-- C1 witness: the scenario on a fully concrete document. -/
theorem c1_end_to_end_witness :
    ∃ ms, (applyMenuStyles (colorTextInputHandler domC1 "qr-item-bgcolor")
        { menuStyles := none }).2.menuStyles = some ms ∧
      ms.itemBgColor = some "rgba(255, 0, 255, 0.9)" ∧
      (applyMenuStyles (colorTextInputHandler domC1 "qr-item-bgcolor")
        { menuStyles := none }).1.cssVars "--qr-item-bg-color" =
          some "rgba(255, 0, 255, 0.9)" :=
  c1_end_to_end domC1 { menuStyles := none } (by decide) (by decide) (by decide) (by decide) rfl

/-! ### Claim C9: apply ordering -/

/-- C9, counterexample: in the phase trace of applyMenuStyles on a fully
populated panel, the mutation of the itemBgColor slot (index 2) happens
before the read of the item-text-colour control (index 3): the source
interleaves form-control reads with model mutations slot by slot, so not
every read precedes every mutation. -/
theorem c9_reads_and_mutations_interleave :
    List.get? (applyMenuStylesT domA { menuStyles := some DEFAULT_MENU_STYLES }).2.2 2 =
      some Phase.mutate ∧
    List.get? (applyMenuStylesT domA { menuStyles := some DEFAULT_MENU_STYLES }).2.2 3 =
      some Phase.read := by
  refine ⟨by decide, by decide⟩

theorem rank0_mem_ite (p : Prop) [Decidable p] (e : Phase)
    (h : e ∈ (if p then [Phase.mutate] else [])) : phaseRank e = 0 := by
  split at h
  · simp only [List.mem_singleton] at h
    subst h
    rfl
  · simp at h

theorem getColorValueT_snd (d : Dom) (pid : String) :
    (getColorValueT d pid).2 =
      (match d.vals (pid ++ "-text") with
        | some v => if jsTestHex6 v then [Phase.read] else [Phase.read, Phase.read]
        | none => [Phase.read]) := by
  cases h : d.vals (pid ++ "-text") with
  | none => simp [getColorValueT, h]
  | some v =>
    by_cases ht : jsTestHex6 v = true <;> simp [getColorValueT, h, ht]

theorem rank0_mem_gc (d : Dom) (pid : String) (e : Phase)
    (h : e ∈ (getColorValueT d pid).2) : phaseRank e = 0 := by
  rw [getColorValueT_snd] at h
  rcases hv : d.vals (pid ++ "-text") with _ | v
  · rw [hv] at h
    simp at h
    subst h
    rfl
  · rw [hv] at h
    by_cases ht : jsTestHex6 v = true <;> simp [ht] at h <;> subst h <;> rfl

theorem rank0_mem_safe (d : Dom) (id : String) (dflt : JSVal) (e : Phase)
    (h : e ∈ (safeGetValueT d id dflt).2) : phaseRank e = 0 := by
  unfold safeGetValueT at h
  rcases hv : d.vals id with - | v <;> rw [hv] at h <;>
    simp only [List.mem_singleton] at h <;> subst h <;> rfl

theorem rank0_mem_single (e : Phase) (h : e ∈ [Phase.mutate]) : phaseRank e = 0 := by
  simp only [List.mem_singleton] at h
  subst h
  rfl

theorem rank1_mem_render (d : Dom) (s : Settings) (e : Phase)
    (h : e ∈ (updateMenuStylesUIT d s).2) : phaseRank e = 1 := by
  unfold updateMenuStylesUIT at h
  split at h
  · have h2 := List.eq_of_mem_replicate h
    subst h2
    rfl
  · simp at h

theorem rank2_mem_close (d : Dom) (e : Phase)
    (h : e ∈ (closeMenuStylePanelT d).2) : phaseRank e = 2 := by
  unfold closeMenuStylePanelT at h
  split at h
  · simp only [List.mem_singleton] at h
    subst h
    rfl
  · simp at h

theorem pairwise_const_rank (L : List Phase) (k : Nat) (h : ∀ e ∈ L, phaseRank e = k) :
    (L.map phaseRank).Pairwise (· ≤ ·) := by
  induction L with
  | nil => exact List.Pairwise.nil
  | cons a t ih =>
    simp only [List.map_cons]
    refine List.Pairwise.cons ?_ (ih (fun e he => h e (by simp [he])))
    intro b hb
    obtain ⟨e, he, hrb⟩ := List.mem_map.mp hb
    rw [← hrb, h a (by simp), h e (by simp [he])]

theorem sorted_three_blocks (X Y Z : List Phase)
    (hx : ∀ e ∈ X, phaseRank e = 0) (hy : ∀ e ∈ Y, phaseRank e = 1)
    (hz : ∀ e ∈ Z, phaseRank e = 2) :
    ((X ++ Y ++ Z).map phaseRank).Sorted (· ≤ ·) := by
  rw [List.map_append, List.map_append]
  apply List.pairwise_append.mpr
  refine ⟨?_, ?_, ?_⟩
  · apply List.pairwise_append.mpr
    refine ⟨pairwise_const_rank X 0 hx, pairwise_const_rank Y 1 hy, ?_⟩
    intro a ha b hb
    obtain ⟨e1, he1, h1⟩ := List.mem_map.mp ha
    obtain ⟨e2, he2, h2⟩ := List.mem_map.mp hb
    rw [← h1, ← h2, hx e1 he1, hy e2 he2]
    omega
  · exact pairwise_const_rank Z 2 hz
  · intro a ha b hb
    obtain ⟨e2, he2, h2⟩ := List.mem_map.mp hb
    rw [List.mem_append] at ha
    rcases ha with ha | ha
    · obtain ⟨e1, he1, h1⟩ := List.mem_map.mp ha
      rw [← h1, ← h2, hx e1 he1, hz e2 he2]
      omega
    · obtain ⟨e1, he1, h1⟩ := List.mem_map.mp ha
      rw [← h1, ← h2, hy e1 he1, hz e2 he2]
      omega

theorem applyMenuStylesT_trace_parts (d : Dom) (s : Settings) :
    (applyMenuStylesT d s).2.2 =
      ((if s.menuStyles.isNone then [Phase.mutate] else []) ++
        (getColorValueT d "qr-item-bgcolor-picker").2 ++
        (safeGetValueT d "qr-item-opacity" (JSVal.vNum (JSNum.fin rat07))).2 ++
        [Phase.mutate] ++
        (getColorValueT d "qr-item-color-picker").2 ++ [Phase.mutate] ++
        (getColorValueT d "qr-title-color-picker").2 ++ [Phase.mutate] ++
        (getColorValueT d "qr-title-border-picker").2 ++ [Phase.mutate] ++
        (getColorValueT d "qr-empty-color-picker").2 ++ [Phase.mutate] ++
        (getColorValueT d "qr-menu-bgcolor-picker").2 ++
        (safeGetValueT d "qr-menu-opacity" (JSVal.vNum (JSNum.fin rat085))).2 ++
        [Phase.mutate] ++
        (getColorValueT d "qr-menu-border-picker").2 ++ [Phase.mutate] ++ [Phase.mutate]) ++
      (updateMenuStylesUIT d (applyMenuStyles d s).2).2 ++
      (closeMenuStylePanelT (updateMenuStylesUIT d (applyMenuStyles d s).2).1).2 := rfl

theorem updateUIT_panelDisplay (d : Dom) (s : Settings) :
    (updateMenuStylesUIT d s).1.panelDisplay = d.panelDisplay := by
  unfold updateMenuStylesUIT
  split <;> rfl

/-- C9 (amended): the phase trace of one applyMenuStyles invocation is
rank-sorted with reads and model mutations sharing the first rank (they
interleave slot by slot, so the claim that every control read precedes
every mutation fails), all of them preceding every live-render update,
which precedes the panel close; the trace contains reads and mutations,
contains renders when the menu root exists, and when the panel element
exists the trace ends with the close event and the invocation leaves the
panel display set to none (the Hidden state). -/
theorem c9_apply_ordering_amended (d : Dom) (s : Settings) :
    ((applyMenuStylesT d s).2.2.map phaseRank).Sorted (· ≤ ·) ∧
    Phase.read ∈ (applyMenuStylesT d s).2.2 ∧
    Phase.mutate ∈ (applyMenuStylesT d s).2.2 ∧
    (d.menuPresent = true → Phase.render ∈ (applyMenuStylesT d s).2.2) ∧
    (d.panelDisplay.isSome = true →
      (applyMenuStylesT d s).2.2.getLast? = some Phase.close ∧
      (applyMenuStyles d s).1.panelDisplay = some "none") := by
  have hread_gc : ∀ pid, Phase.read ∈ (getColorValueT d pid).2 := by
    intro pid
    rw [getColorValueT_snd]
    rcases hv : d.vals (pid ++ "-text") with _ | v
    · simp
    · by_cases ht : jsTestHex6 v = true <;> simp [ht]
  rw [applyMenuStylesT_trace_parts]
  have hX : ∀ e ∈ ((if s.menuStyles.isNone then [Phase.mutate] else []) ++
      (getColorValueT d "qr-item-bgcolor-picker").2 ++
      (safeGetValueT d "qr-item-opacity" (JSVal.vNum (JSNum.fin rat07))).2 ++
      [Phase.mutate] ++
      (getColorValueT d "qr-item-color-picker").2 ++ [Phase.mutate] ++
      (getColorValueT d "qr-title-color-picker").2 ++ [Phase.mutate] ++
      (getColorValueT d "qr-title-border-picker").2 ++ [Phase.mutate] ++
      (getColorValueT d "qr-empty-color-picker").2 ++ [Phase.mutate] ++
      (getColorValueT d "qr-menu-bgcolor-picker").2 ++
      (safeGetValueT d "qr-menu-opacity" (JSVal.vNum (JSNum.fin rat085))).2 ++
      [Phase.mutate] ++
      (getColorValueT d "qr-menu-border-picker").2 ++ [Phase.mutate] ++ [Phase.mutate]),
      phaseRank e = 0 := by
    intro e he
    simp only [List.mem_append] at he
    rcases he with (((((((((((((((((h | h) | h) | h) | h) | h) | h) | h) | h) | h) | h) | h) |
      h) | h) | h) | h) | h) | h) <;>
      first
        | exact rank0_mem_ite _ _ h
        | exact rank0_mem_gc d _ _ h
        | exact rank0_mem_safe d _ _ _ h
        | exact rank0_mem_single _ h
  refine ⟨?_, ?_, ?_, ?_, ?_⟩
  · exact sorted_three_blocks _ _ _ hX (fun e he => rank1_mem_render _ _ e he)
      (fun e he => rank2_mem_close _ e he)
  · simp [hread_gc "qr-item-bgcolor-picker"]
  · simp
  · intro hm
    have hr : Phase.render ∈ (updateMenuStylesUIT d (applyMenuStyles d s).2).2 := by
      unfold updateMenuStylesUIT
      rw [if_pos hm]
      simp
    simp [hr]
  · intro hp
    have hp2 : ((updateMenuStylesUIT d (applyMenuStyles d s).2).1.panelDisplay).isSome
        = true := by
      rw [updateUIT_panelDisplay]
      exact hp
    have hcl : (closeMenuStylePanelT
        (updateMenuStylesUIT d (applyMenuStyles d s).2).1).2 = [Phase.close] := by
      unfold closeMenuStylePanelT
      rw [if_pos hp2]
    constructor
    · rw [hcl]
      exact List.getLast?_concat _
    · rw [applyMenuStyles_fst]
      unfold closeMenuStylePanelT
      rw [if_pos hp2]

/-- C9 witness: the amended ordering statement on the concrete document
with menu and panel present. -/
theorem c9_apply_ordering_amended_witness :
    (applyMenuStylesT domA { menuStyles := some DEFAULT_MENU_STYLES }).2.2.getLast? =
      some Phase.close ∧
    (applyMenuStyles domA { menuStyles := some DEFAULT_MENU_STYLES }).1.panelDisplay =
      some "none" :=
  (c9_apply_ordering_amended domA { menuStyles := some DEFAULT_MENU_STYLES }).2.2.2.2
    (by decide)

end QR31
